import Mathlib

/-!
# go-config: startup configuration resolver

A shallow embedding of `config/config.go`: the argument parser
(`LoadStartupArgs`), the file loader and merger (`LoadConfigFile`) and the
orchestrator (`Load`), followed by theorems about them.

Go strings are modelled by Lean `String`s (sequences of characters).  The
process state touched by the package besides the settings record is kept
explicit in `Sys`: what was written to standard output and which paths were
handed to `ioutil.ReadFile`.  `os.Exit` and a run-time panic end a run and are
the `exited` and `panicked` results of `Step`.

The file system and the YAML decoder are external; they are the two fields of
`Env`.
-/

namespace Config

/-! ## Constants -/

def defaultFoo : String := "defaultFoo"
def defaultBar : String := "defaultBar"
def defaultBaz : String := "defaultBaz"
def defaultConfigLocation : String := "./democonfig.yml"
def appName : String := "democonfig"

/-- The text shown for `--help` / `-h` (a Go raw string: it starts with a line break). -/
def helpMessage : String :=
  "\n\t--help\t \t-h\t\tDisplay this help message.\n\t--foo= \t\t-f=\t\tSet foo value.\t\t\tDefault: defaultFoo\n\t--bar= \t\t-b=\t\tSet bar value.\t\t\tDefault: defaultBar\n\t--baz= \t\t-z=\t\tSet baz value.\t\t\tDefault: defaultBaz\n\t--config=\t-c=\t\tPath to config file.\t\tDefault: ./democonfig.yml"

def version : String := "0.0.1"
def buildDay : String := "2021-08-01"

/-! ## Data model -/

/-- The settings record `SettingsRec`. -/
structure SettingsRec where
  Foo : String := ""
  Bar : String := ""
  Baz : String := ""
  ConfigLocation : String := ""
deriving DecidableEq, Repr

/-- The two package errors `errNoFile` and `errUnmarshalYAML`. -/
inductive Error where
  | errNoFile
  | errUnmarshalYAML
deriving DecidableEq, Repr

/-- The text of an error (`errors.New(...)`). -/
def Error.text : Error → String
  | .errNoFile => "no config file found...using default values"
  | .errUnmarshalYAML => "unable to read config file"

/-- Observable process state besides the record: standard output so far and
the paths passed to `ioutil.ReadFile`, oldest first. -/
structure Sys where
  stdout : String := ""
  reads : List String := []
deriving DecidableEq, Repr

/-- How a piece of code ends: it returns a value, it calls `os.Exit code`, or
it panics (index out of range). -/
inductive Step (α : Type) where
  | returned (a : α) (sys : Sys)
  | exited (code : Int) (sys : Sys)
  | panicked (sys : Sys)
deriving DecidableEq, Repr

/-- The external collaborators of `LoadConfigFile`.
`readFile p` is `ioutil.ReadFile(p)`: `none` when it returns an error.
`unmarshal bytes target` is `yaml.Unmarshal(bytes, &target)`: the target after
the call (possibly partly filled even on failure) and whether an error was
returned. -/
structure Env where
  readFile : String → Option String
  unmarshal : String → SettingsRec → SettingsRec × Bool

/-! ## Library functions used by the parser -/

/-- Go `strings.HasPrefix(s, pre)`. -/
def HasPrefix (s pre : String) : Bool :=
  pre.data.isPrefixOf s.data

/-- Go `strings.SplitAfter` for a one-character separator, on character
lists: the input is cut after every occurrence of `sep`; the pieces keep the
separator and concatenate back to the input. -/
def splitAfterChars (sep : Char) : List Char → List (List Char)
  | [] => [[]]
  | c :: cs =>
    if c = sep then [c] :: splitAfterChars sep cs
    else
      match splitAfterChars sep cs with
      | [] => [[c]]
      | p :: ps => (c :: p) :: ps

/-- Go `strings.SplitAfter(s, sep)` where `sep` is the one-character string
made of `sep`. -/
def SplitAfter (s : String) (sep : Char) : List String :=
  (splitAfterChars sep s.data).map String.mk

/-- The expression `strings.SplitAfter(v, "=")[1]`: `none` stands for the
index-out-of-range panic. -/
def argValue (v : String) : Option String :=
  (SplitAfter v '=').get? 1

/-! ## The argument parser -/

/-- The banner line printed by `fmt.Printf("%s %s built on %s\n", ...)`. -/
def banner : String :=
  appName ++ " " ++ version ++ " built on " ++ buildDay ++ "\n"

/-- Writing `text` to standard output. -/
def Sys.print (sys : Sys) (text : String) : Sys :=
  { sys with stdout := sys.stdout ++ text }

/-- The body of the `for` loop of `LoadStartupArgs` for one argument `v` at an
index other than 0: first the `switch v` over the exit commands, then the
`switch` over the value prefixes. -/
def processArg (v : String) (s : SettingsRec) (sys : Sys) : Step SettingsRec :=
  if v = "--version" ∨ v = "-V" then
    .exited 0 (sys.print banner)
  else if v = "--help" ∨ v = "-h" then
    .exited 0 ((sys.print banner).print (helpMessage ++ "\n"))
  else if HasPrefix v "--foo=" || HasPrefix v "-f=" then
    match argValue v with
    | some a => .returned { s with Foo := a } sys
    | none => .panicked sys
  else if HasPrefix v "--bar=" || HasPrefix v "-b=" then
    match argValue v with
    | some a => .returned { s with Bar := a } sys
    | none => .panicked sys
  else if HasPrefix v "--baz=" || HasPrefix v "-z=" then
    match argValue v with
    | some a => .returned { s with Baz := a } sys
    | none => .panicked sys
  else if HasPrefix v "--config=" || HasPrefix v "-c=" then
    match argValue v with
    | some a => .returned { s with ConfigLocation := a } sys
    | none => .panicked sys
  else
    .exited 1 (sys.print ("unknown argument: " ++ v ++ "\n"))

/-- The loop `for i, v := range os.Args`, started at index `i`. -/
def argsLoop : Nat → List String → SettingsRec → Sys → Step SettingsRec
  | _, [], s, sys => .returned s sys
  | i, v :: rest, s, sys =>
    if i = 0 then argsLoop (i + 1) rest s sys
    else
      match processArg v s sys with
      | .returned s1 sys1 => argsLoop (i + 1) rest s1 sys1
      | .exited code sys1 => .exited code sys1
      | .panicked sys1 => .panicked sys1

/-- The method `LoadStartupArgs`; `osArgs` is `os.Args`, program name included. -/
def LoadStartupArgs (s : SettingsRec) (osArgs : List String) (sys : Sys) : Step SettingsRec :=
  if osArgs.length = 1 then .returned s sys
  else argsLoop 0 osArgs s sys

/-! ## The file loader and merger -/

/-- The deferred function of `LoadConfigFile`: when the function is leaving
with an error, empty settings get their defaults. -/
def deferredDefaults (err : Option Error) (s : SettingsRec) : SettingsRec :=
  match err with
  | none => s
  | some _ =>
    let s := if s.Foo = "" then { s with Foo := defaultFoo } else s
    let s := if s.Bar = "" then { s with Bar := defaultBar } else s
    let s := if s.Baz = "" then { s with Baz := defaultBaz } else s
    s

/-- The method `LoadConfigFile`: the record after the call, the returned error
and the process state. -/
def LoadConfigFile (env : Env) (s : SettingsRec) (sys : Sys) :
    SettingsRec × Option Error × Sys :=
  let s := if s.ConfigLocation = "" then { s with ConfigLocation := defaultConfigLocation } else s
  let sys := { sys with reads := sys.reads ++ [s.ConfigLocation] }
  match env.readFile s.ConfigLocation with
  | none => (deferredDefaults (some .errNoFile) s, some .errNoFile, sys)
  | some file =>
    let decoded := env.unmarshal file {}
    if decoded.2 then
      (deferredDefaults (some .errUnmarshalYAML) s, some .errUnmarshalYAML, sys)
    else
      let fileConfig := decoded.1
      let fileConfig :=
        if fileConfig.Foo = "" then { fileConfig with Foo := defaultFoo } else fileConfig
      let fileConfig :=
        if fileConfig.Bar = "" then { fileConfig with Bar := defaultBar } else fileConfig
      let fileConfig :=
        if fileConfig.Baz = "" then { fileConfig with Baz := defaultBaz } else fileConfig
      let s := if s.Foo = "" then { s with Foo := fileConfig.Foo } else s
      let s := if s.Bar = "" then { s with Bar := fileConfig.Bar } else s
      let s := if s.Baz = "" then { s with Baz := fileConfig.Baz } else s
      (deferredDefaults none s, none, sys)

/-! ## The orchestrator -/

/-- The method `Load`: the final record and the returned error, unless the
parser ended the process. -/
def Load (env : Env) (s : SettingsRec) (osArgs : List String) (sys : Sys) :
    Step (SettingsRec × Option Error) :=
  match LoadStartupArgs s osArgs sys with
  | .returned s1 sys1 =>
    let r := LoadConfigFile env s1 sys1
    .returned (r.1, r.2.1) r.2.2
  | .exited code sys1 => .exited code sys1
  | .panicked sys1 => .panicked sys1

/-! ## Vocabulary of the specification -/

/-- The path that is read: the location left by the parser, or the default
path when that is empty. -/
def resolvedLocation (s : SettingsRec) : String :=
  if s.ConfigLocation = "" then defaultConfigLocation else s.ConfigLocation

/-- The three-way rule argument > file > default for one setting. -/
def pick (arg file dflt : String) : String :=
  if arg ≠ "" then arg else if file ≠ "" then file else dflt

/-- The two-way rule argument > default for one setting. -/
def orDefault (arg dflt : String) : String :=
  if arg ≠ "" then arg else dflt

/-- The substring of a token strictly after its first `=`. -/
def afterFirstEq (v : String) : String :=
  String.mk ((v.data.dropWhile (fun c => c != '=')).drop 1)

/-- What an exit command prints: the banner line, and for help the help text
as a further line. -/
def exitText (tok : String) : String :=
  if tok = "--version" ∨ tok = "-V" then banner else banner ++ (helpMessage ++ "\n")

/-- The exit commands: `--version`, `-V`, `--help`, `-h`. -/
def isExitTok (v : String) : Bool :=
  decide (v = "--version" ∨ v = "-V" ∨ v = "--help" ∨ v = "-h")

/-- Tokens of the form `--foo=VALUE` or `-f=VALUE`. -/
def isFooTok (v : String) : Bool := HasPrefix v "--foo=" || HasPrefix v "-f="

/-- Tokens of the form `--bar=VALUE` or `-b=VALUE`. -/
def isBarTok (v : String) : Bool := HasPrefix v "--bar=" || HasPrefix v "-b="

/-- Tokens of the form `--baz=VALUE` or `-z=VALUE`. -/
def isBazTok (v : String) : Bool := HasPrefix v "--baz=" || HasPrefix v "-z="

/-- Tokens of the form `--config=VALUE` or `-c=VALUE`. -/
def isConfigTok (v : String) : Bool := HasPrefix v "--config=" || HasPrefix v "-c="

/-- The value-bearing tokens. -/
def isValueTok (v : String) : Bool :=
  isFooTok v || isBarTok v || isBazTok v || isConfigTok v

/-- The tokens of the grammar: exit commands and value-bearing tokens. -/
def recognized (v : String) : Bool := isExitTok v || isValueTok v

/-- The last token of `args`, in vector order, that satisfies `targets`. -/
def lastTarget (targets : String → Bool) (args : List String) : Option String :=
  (args.filter targets).getLast?

/-- The value the parser takes out of a value-bearing token. -/
def carried (v : String) : String := (argValue v).getD ""

/-- Last write wins: the value taken from the last token that targets the
setting, or `init` when no token targets it. -/
def lastWrite (targets : String → Bool) (init : String) (args : List String) : String :=
  match lastTarget targets args with
  | some t => carried t
  | none => init

/-- What one value-bearing token does to the record. -/
def store (v : String) (s : SettingsRec) : SettingsRec :=
  if isFooTok v then { s with Foo := carried v }
  else if isBarTok v then { s with Bar := carried v }
  else if isBazTok v then { s with Baz := carried v }
  else if isConfigTok v then { s with ConfigLocation := carried v }
  else s

/-! ## Environments used in the worked scenarios -/

/-- No file can be read. -/
def envNoFile : Env where
  readFile := fun _ => none
  unmarshal := fun _ target => (target, false)

/-- The file `./alt.yml` holds `foo: A`, `bar: B`; nothing else can be read. -/
def envAltFile : Env where
  readFile := fun path => if path = "./alt.yml" then some "foo: A\nbar: B" else none
  unmarshal := fun bytes target =>
    if bytes = "foo: A\nbar: B" then ({ target with Foo := "A", Bar := "B" }, false)
    else (target, true)

/-- The file at the default path holds `::: not yaml :::`; the decoder fails
on it after having written something into its target. -/
def envBrokenFile : Env where
  readFile := fun path => if path = "./democonfig.yml" then some "::: not yaml :::" else none
  unmarshal := fun _ target => ({ target with Foo := "half", Baz := "read" }, true)

/-- Every path holds an empty file, which decodes to the untouched target. -/
def envEmptyFile : Env where
  readFile := fun _ => some ""
  unmarshal := fun _ target => (target, false)

/-- The record the parser leaves on a vector of value-bearing tokens: last
write wins, setting by setting. -/
def parsed (args : List String) (s : SettingsRec) : SettingsRec :=
  { Foo := lastWrite isFooTok s.Foo args, Bar := lastWrite isBarTok s.Bar args,
    Baz := lastWrite isBazTok s.Baz args,
    ConfigLocation := lastWrite isConfigTok s.ConfigLocation args }

/-- The token `u` is the other form (short for long, long for short) of the
token `t`, with the same value. -/
def otherForm (t u : String) : Prop :=
  (t = "--help" ∧ u = "-h") ∨ (t = "-h" ∧ u = "--help") ∨
  (t = "--version" ∧ u = "-V") ∨ (t = "-V" ∧ u = "--version") ∨
  ∃ value : String,
    (t = "--foo=" ++ value ∧ u = "-f=" ++ value) ∨
    (t = "-f=" ++ value ∧ u = "--foo=" ++ value) ∨
    (t = "--bar=" ++ value ∧ u = "-b=" ++ value) ∨
    (t = "-b=" ++ value ∧ u = "--bar=" ++ value) ∨
    (t = "--baz=" ++ value ∧ u = "-z=" ++ value) ∨
    (t = "-z=" ++ value ∧ u = "--baz=" ++ value) ∨
    (t = "--config=" ++ value ∧ u = "-c=" ++ value) ∨
    (t = "-c=" ++ value ∧ u = "--config=" ++ value)

/-- Go `strings.Contains` on character lists: `sub` occurs in the list as a
run of consecutive characters. -/
def containsChars (sub : List Char) : List Char → Bool
  | [] => sub.isEmpty
  | c :: cs => sub.isPrefixOf (c :: cs) || containsChars sub cs

/-- Go `strings.Contains(s, sub)`. -/
def Contains (s sub : String) : Bool := containsChars sub.data s.data

/-- The value the file gives to a setting (`field` selects it): the decoded
value, or the empty string when the file at `loc` is not read or not decoded. -/
def fileValue (env : Env) (loc : String) (field : SettingsRec → String) : String :=
  match env.readFile loc with
  | none => ""
  | some bytes =>
    if (env.unmarshal bytes {}).2 then "" else field (env.unmarshal bytes {}).1

/-- The file `./alt.yml` holds `foo: A`, `bar: B` and further keys, one of
which the decoder writes into the `ConfigLocation` field of its target. -/
def envAltFileExtra : Env where
  readFile := fun path =>
    if path = "./alt.yml" then some "foo: A\nbar: B\nconfiglocation: /tmp/x.yml\nqux: 1"
    else none
  unmarshal := fun bytes target =>
    if bytes = "foo: A\nbar: B\nconfiglocation: /tmp/x.yml\nqux: 1" then
      ({ target with Foo := "A", Bar := "B", ConfigLocation := "/tmp/x.yml" }, false)
    else (target, true)

/-! ## Facts about the string functions -/

theorem HasPrefix_iff (v p : String) : HasPrefix v p = true ↔ ∃ t, v.data = p.data ++ t := by
  unfold HasPrefix
  rw [List.isPrefixOf_iff_prefix]
  constructor
  · rintro ⟨t, ht⟩
    exact ⟨t, ht.symm⟩
  · rintro ⟨t, ht⟩
    exact ⟨t, ht.symm⟩

/-- Two prefixes that cannot both start the same string. -/
theorem HasPrefix_clash (v p q : String) (h : HasPrefix v p = true)
    (hq : ∀ t, q.data.isPrefixOf (p.data ++ t) = false) : HasPrefix v q = false := by
  obtain ⟨t, ht⟩ := (HasPrefix_iff _ _).1 h
  unfold HasPrefix
  rw [ht]
  exact hq t

theorem HasPrefix_mem (v p : String) (c : Char) (h : HasPrefix v p = true)
    (hc : c ∈ p.data) : c ∈ v.data := by
  obtain ⟨t, ht⟩ := (HasPrefix_iff _ _).1 h
  rw [ht]
  exact List.mem_append_left _ hc

theorem splitAfterChars_ne_nil (sep : Char) (l : List Char) : splitAfterChars sep l ≠ [] := by
  cases l with
  | nil => simp [splitAfterChars]
  | cons c cs =>
    unfold splitAfterChars
    split
    · simp
    · split <;> simp

/-- A string that contains the separator is cut into at least two pieces. -/
theorem splitAfterChars_length (sep : Char) (l : List Char) (h : sep ∈ l) :
    2 ≤ (splitAfterChars sep l).length := by
  induction l with
  | nil => simp at h
  | cons c cs ih =>
    unfold splitAfterChars
    by_cases hc : c = sep
    · have hne := splitAfterChars_ne_nil sep cs
      rw [if_pos hc]
      cases hs : splitAfterChars sep cs with
      | nil => exact absurd hs hne
      | cons p ps => simp
    · rw [if_neg hc]
      have hmem : sep ∈ cs := by
        rcases List.mem_cons.1 h with h1 | h1
        · exact absurd h1.symm hc
        · exact h1
      have := ih hmem
      cases hs : splitAfterChars sep cs with
      | nil => rw [hs] at this; simp at this
      | cons p ps => rw [hs] at this; simpa using this

theorem argValue_some_of_mem (v : String) (h : '=' ∈ v.data) :
    argValue v = some (carried v) := by
  have hlen : 1 < (SplitAfter v '=').length := by
    have := splitAfterChars_length '=' v.data h
    simp only [SplitAfter, List.length_map]
    omega
  unfold carried argValue
  cases hg : (SplitAfter v '=').get? 1 with
  | none =>
    rw [List.get?_eq_none] at hg
    omega
  | some a => rfl

theorem isValueTok_mem (v : String) (h : isValueTok v = true) : '=' ∈ v.data := by
  simp only [isValueTok, isFooTok, isBarTok, isBazTok, isConfigTok, Bool.or_eq_true,
    or_assoc] at h
  rcases h with h | h | h | h | h | h | h | h <;>
    exact HasPrefix_mem _ _ _ h (by decide)

theorem argValue_of_value (v : String) (h : isValueTok v = true) :
    argValue v = some (carried v) :=
  argValue_some_of_mem v (isValueTok_mem v h)

theorem splitAfterChars_of_not_mem (sep : Char) (l : List Char) (h : sep ∉ l) :
    splitAfterChars sep l = [l] := by
  induction l with
  | nil => rfl
  | cons c cs ih =>
    have hc : c ≠ sep := fun e => h (e ▸ List.mem_cons_self _ _)
    have hcs : sep ∉ cs := fun e => h (List.mem_cons_of_mem _ e)
    rw [splitAfterChars, if_neg hc, ih hcs]

/-- Piece 1 of the split is piece 0 of the split of what follows the first
separator. -/
theorem splitAfterChars_get_one (sep : Char) (l : List Char) (h : sep ∈ l) :
    (splitAfterChars sep l).get? 1 =
      (splitAfterChars sep ((l.dropWhile (fun c => c != sep)).drop 1)).head? := by
  induction l with
  | nil => simp at h
  | cons c cs ih =>
    by_cases hc : c = sep
    · subst hc
      rw [splitAfterChars, if_pos rfl]
      simp only [List.dropWhile, bne_self_eq_false, List.drop_succ_cons, List.drop_zero]
      cases splitAfterChars c cs <;> rfl
    · have hmem : sep ∈ cs := by
        rcases List.mem_cons.1 h with h1 | h1
        · exact absurd h1.symm hc
        · exact h1
      rw [splitAfterChars, if_neg hc]
      have hd : (c :: cs).dropWhile (fun c => c != sep) = cs.dropWhile (fun c => c != sep) := by
        have hne : (c != sep) = true := by simpa using hc
        rw [List.dropWhile_cons, if_pos hne]
      rw [hd, ← ih hmem]
      cases hs : splitAfterChars sep cs with
      | nil => exact absurd hs (splitAfterChars_ne_nil sep cs)
      | cons q qs => cases qs <;> rfl

/-- When the text after the first `=` of a token holds no further `=`, that
text is what the parser takes from the token. -/
theorem argValue_eq_afterFirstEq (v : String) (h : '=' ∈ v.data)
    (h2 : '=' ∉ (afterFirstEq v).data) : argValue v = some (afterFirstEq v) := by
  unfold argValue SplitAfter
  rw [List.get?_eq_getElem?, List.getElem?_map, ← List.get?_eq_getElem?,
    splitAfterChars_get_one '=' v.data h]
  unfold afterFirstEq at h2 ⊢
  rw [splitAfterChars_of_not_mem '=' _ h2]
  rfl

/-! ## The token classes do not overlap -/

theorem isFooTok_not_bar (v : String) (h : isFooTok v = true) : isBarTok v = false := by
  simp only [isFooTok, isBarTok, Bool.or_eq_true, Bool.or_eq_false_iff] at *
  rcases h with h | h <;>
    exact ⟨HasPrefix_clash _ _ _ h (fun _ => rfl), HasPrefix_clash _ _ _ h (fun _ => rfl)⟩

theorem isFooTok_not_baz (v : String) (h : isFooTok v = true) : isBazTok v = false := by
  simp only [isFooTok, isBazTok, Bool.or_eq_true, Bool.or_eq_false_iff] at *
  rcases h with h | h <;>
    exact ⟨HasPrefix_clash _ _ _ h (fun _ => rfl), HasPrefix_clash _ _ _ h (fun _ => rfl)⟩

theorem isFooTok_not_config (v : String) (h : isFooTok v = true) : isConfigTok v = false := by
  simp only [isFooTok, isConfigTok, Bool.or_eq_true, Bool.or_eq_false_iff] at *
  rcases h with h | h <;>
    exact ⟨HasPrefix_clash _ _ _ h (fun _ => rfl), HasPrefix_clash _ _ _ h (fun _ => rfl)⟩

theorem isBarTok_not_baz (v : String) (h : isBarTok v = true) : isBazTok v = false := by
  simp only [isBarTok, isBazTok, Bool.or_eq_true, Bool.or_eq_false_iff] at *
  rcases h with h | h <;>
    exact ⟨HasPrefix_clash _ _ _ h (fun _ => rfl), HasPrefix_clash _ _ _ h (fun _ => rfl)⟩

theorem isBarTok_not_config (v : String) (h : isBarTok v = true) : isConfigTok v = false := by
  simp only [isBarTok, isConfigTok, Bool.or_eq_true, Bool.or_eq_false_iff] at *
  rcases h with h | h <;>
    exact ⟨HasPrefix_clash _ _ _ h (fun _ => rfl), HasPrefix_clash _ _ _ h (fun _ => rfl)⟩

theorem isBazTok_not_config (v : String) (h : isBazTok v = true) : isConfigTok v = false := by
  simp only [isBazTok, isConfigTok, Bool.or_eq_true, Bool.or_eq_false_iff] at *
  rcases h with h | h <;>
    exact ⟨HasPrefix_clash _ _ _ h (fun _ => rfl), HasPrefix_clash _ _ _ h (fun _ => rfl)⟩

theorem isBarTok_not_foo (v : String) (h : isBarTok v = true) : isFooTok v = false := by
  cases hf : isFooTok v with
  | false => rfl
  | true => rw [isFooTok_not_bar v hf] at h; cases h

theorem isBazTok_not_foo (v : String) (h : isBazTok v = true) : isFooTok v = false := by
  cases hf : isFooTok v with
  | false => rfl
  | true => rw [isFooTok_not_baz v hf] at h; cases h

theorem isBazTok_not_bar (v : String) (h : isBazTok v = true) : isBarTok v = false := by
  cases hf : isBarTok v with
  | false => rfl
  | true => rw [isBarTok_not_baz v hf] at h; cases h

theorem isConfigTok_not_foo (v : String) (h : isConfigTok v = true) : isFooTok v = false := by
  cases hf : isFooTok v with
  | false => rfl
  | true => rw [isFooTok_not_config v hf] at h; cases h

theorem isConfigTok_not_bar (v : String) (h : isConfigTok v = true) : isBarTok v = false := by
  cases hf : isBarTok v with
  | false => rfl
  | true => rw [isBarTok_not_config v hf] at h; cases h

theorem isConfigTok_not_baz (v : String) (h : isConfigTok v = true) : isBazTok v = false := by
  cases hf : isBazTok v with
  | false => rfl
  | true => rw [isBazTok_not_config v hf] at h; cases h

/-- An exit command is not a value-bearing token. -/
theorem isExitTok_not_value (v : String) (h : isExitTok v = true) : isValueTok v = false := by
  simp only [isExitTok, decide_eq_true_eq] at h
  rcases h with rfl | rfl | rfl | rfl <;> decide

theorem isValueTok_not_exit (v : String) (h : isValueTok v = true) : isExitTok v = false := by
  cases he : isExitTok v with
  | false => rfl
  | true => rw [isExitTok_not_value v he] at h; cases h

/-! ## One step of the parser -/

theorem processArg_version (v : String) (s : SettingsRec) (sys : Sys)
    (h : v = "--version" ∨ v = "-V") :
    processArg v s sys = .exited 0 (sys.print banner) := by
  unfold processArg
  rw [if_pos h]

theorem processArg_help (v : String) (s : SettingsRec) (sys : Sys)
    (h : v = "--help" ∨ v = "-h") :
    processArg v s sys = .exited 0 ((sys.print banner).print (helpMessage ++ "\n")) := by
  have h1 : ¬ (v = "--version" ∨ v = "-V") := by
    rcases h with rfl | rfl <;> decide
  unfold processArg
  rw [if_neg h1, if_pos h]

theorem not_exit_cases (v : String) (h : isExitTok v = false) :
    ¬ (v = "--version" ∨ v = "-V") ∧ ¬ (v = "--help" ∨ v = "-h") := by
  simp only [isExitTok, decide_eq_false_iff_not] at h
  constructor
  · rintro (h1 | h1)
    · exact h (Or.inl h1)
    · exact h (Or.inr (Or.inl h1))
  · rintro (h1 | h1)
    · exact h (Or.inr (Or.inr (Or.inl h1)))
    · exact h (Or.inr (Or.inr (Or.inr h1)))

/-- A value-bearing token is stored and the loop goes on. -/
theorem processArg_value (v : String) (s : SettingsRec) (sys : Sys)
    (h : isValueTok v = true) :
    processArg v s sys = .returned (store v s) sys := by
  obtain ⟨h1, h2⟩ := not_exit_cases v (isValueTok_not_exit v h)
  have hv := argValue_of_value v h
  unfold processArg store
  rw [if_neg h1, if_neg h2, hv]
  simp only [isValueTok, Bool.or_eq_true] at h
  simp only [isFooTok, isBarTok, isBazTok, isConfigTok] at *
  by_cases hf : (HasPrefix v "--foo=" || HasPrefix v "-f=") = true
  · simp [hf]
  · by_cases hb : (HasPrefix v "--bar=" || HasPrefix v "-b=") = true
    · simp [hf, hb]
    · by_cases hz : (HasPrefix v "--baz=" || HasPrefix v "-z=") = true
      · simp [hf, hb, hz]
      · by_cases hc : (HasPrefix v "--config=" || HasPrefix v "-c=") = true
        · simp [hf, hb, hz, hc]
        · exfalso
          rcases h with ((h | h) | h) | h
          · exact hf h
          · exact hb h
          · exact hz h
          · exact hc h

/-- A token outside the grammar prints the message and exits with code 1. -/
theorem processArg_unknown (v : String) (s : SettingsRec) (sys : Sys)
    (h : recognized v = false) :
    processArg v s sys = .exited 1 (sys.print ("unknown argument: " ++ v ++ "\n")) := by
  simp only [recognized, Bool.or_eq_false_iff] at h
  obtain ⟨he, hv⟩ := h
  obtain ⟨h1, h2⟩ := not_exit_cases v he
  simp only [isValueTok, Bool.or_eq_false_iff, isFooTok, isBarTok, isBazTok, isConfigTok] at hv
  obtain ⟨⟨⟨⟨a, b⟩, c, d⟩, e, f⟩, g, i⟩ := hv
  unfold processArg
  rw [if_neg h1, if_neg h2]
  simp [a, b, c, d, e, f, g, i]

/-! ## The parser loop -/

/-- With a program name in front, `LoadStartupArgs` is the loop over the
remaining arguments. -/
theorem LoadStartupArgs_cons (s : SettingsRec) (prog : String) (args : List String)
    (sys : Sys) : LoadStartupArgs s (prog :: args) sys = argsLoop 1 args s sys := by
  unfold LoadStartupArgs
  cases args with
  | nil => simp [argsLoop]
  | cons a as => simp [argsLoop]

/-- A run of value-bearing tokens is stored token by token. -/
theorem argsLoop_values (pre rest : List String) (h : ∀ t ∈ pre, isValueTok t = true)
    (i : Nat) (hi : i ≠ 0) (s : SettingsRec) (sys : Sys) :
    argsLoop i (pre ++ rest) s sys =
      argsLoop (i + pre.length) rest (pre.foldl (fun r v => store v r) s) sys := by
  induction pre generalizing i s with
  | nil => simp
  | cons t ts ih =>
    have ht : isValueTok t = true := h t (List.mem_cons_self _ _)
    have hts : ∀ u ∈ ts, isValueTok u = true := fun u hu => h u (List.mem_cons_of_mem _ hu)
    rw [List.cons_append, argsLoop, if_neg hi, processArg_value t s sys ht]
    simp only [List.foldl_cons, List.length_cons]
    rw [ih hts (i + 1) (Nat.succ_ne_zero i) (store t s)]
    congr 1
    omega

theorem argsLoop_all_values (args : List String) (h : ∀ t ∈ args, isValueTok t = true)
    (i : Nat) (hi : i ≠ 0) (s : SettingsRec) (sys : Sys) :
    argsLoop i args s sys = .returned (args.foldl (fun r v => store v r) s) sys := by
  have := argsLoop_values args [] h i hi s sys
  rw [List.append_nil] at this
  rw [this, argsLoop]

/-! ## Last write wins -/

theorem lastWrite_cons (targets : String → Bool) (init t : String) (rest : List String) :
    lastWrite targets init (t :: rest) =
      lastWrite targets (if targets t = true then carried t else init) rest := by
  unfold lastWrite lastTarget
  by_cases ht : targets t = true
  · rw [List.filter_cons_of_pos ht, if_pos ht]
    cases hr : rest.filter targets with
    | nil => simp
    | cons a as =>
      rw [List.getLast?_cons_cons]
      cases hl : (a :: as).getLast? with
      | none => simp at hl
      | some u => rfl
  · rw [List.filter_cons_of_neg ht, if_neg ht]

theorem store_Foo (v : String) (s : SettingsRec) :
    (store v s).Foo = if isFooTok v = true then carried v else s.Foo := by
  unfold store
  by_cases hf : isFooTok v = true
  · simp [hf]
  · simp only [hf]
    split_ifs <;> rfl

theorem store_Bar (v : String) (s : SettingsRec) :
    (store v s).Bar = if isBarTok v = true then carried v else s.Bar := by
  unfold store
  by_cases hb : isBarTok v = true
  · simp [hb, isBarTok_not_foo v hb]
  · simp only [hb]
    split_ifs <;> first | rfl | contradiction

theorem store_Baz (v : String) (s : SettingsRec) :
    (store v s).Baz = if isBazTok v = true then carried v else s.Baz := by
  unfold store
  by_cases hz : isBazTok v = true
  · simp [hz, isBazTok_not_foo v hz, isBazTok_not_bar v hz]
  · simp only [hz]
    split_ifs <;> first | rfl | contradiction

theorem store_ConfigLocation (v : String) (s : SettingsRec) :
    (store v s).ConfigLocation =
      if isConfigTok v = true then carried v else s.ConfigLocation := by
  unfold store
  by_cases hc : isConfigTok v = true
  · simp [hc, isConfigTok_not_foo v hc, isConfigTok_not_bar v hc, isConfigTok_not_baz v hc]
  · simp only [hc]
    split_ifs <;> first | rfl | contradiction

theorem foldl_store_Foo (args : List String) (s : SettingsRec) :
    (args.foldl (fun r v => store v r) s).Foo = lastWrite isFooTok s.Foo args := by
  induction args generalizing s with
  | nil => rfl
  | cons t ts ih => rw [List.foldl_cons, ih, lastWrite_cons, store_Foo]

theorem foldl_store_Bar (args : List String) (s : SettingsRec) :
    (args.foldl (fun r v => store v r) s).Bar = lastWrite isBarTok s.Bar args := by
  induction args generalizing s with
  | nil => rfl
  | cons t ts ih => rw [List.foldl_cons, ih, lastWrite_cons, store_Bar]

theorem foldl_store_Baz (args : List String) (s : SettingsRec) :
    (args.foldl (fun r v => store v r) s).Baz = lastWrite isBazTok s.Baz args := by
  induction args generalizing s with
  | nil => rfl
  | cons t ts ih => rw [List.foldl_cons, ih, lastWrite_cons, store_Baz]

theorem foldl_store_ConfigLocation (args : List String) (s : SettingsRec) :
    (args.foldl (fun r v => store v r) s).ConfigLocation =
      lastWrite isConfigTok s.ConfigLocation args := by
  induction args generalizing s with
  | nil => rfl
  | cons t ts ih => rw [List.foldl_cons, ih, lastWrite_cons, store_ConfigLocation]

/-- The parser on a vector of value-bearing tokens: it returns, prints nothing
and leaves in each setting the last value written to it. -/
theorem LoadStartupArgs_values (s : SettingsRec) (prog : String) (args : List String)
    (sys : Sys) (h : ∀ t ∈ args, isValueTok t = true) :
    LoadStartupArgs s (prog :: args) sys =
      .returned
        { Foo := lastWrite isFooTok s.Foo args, Bar := lastWrite isBarTok s.Bar args,
          Baz := lastWrite isBazTok s.Baz args,
          ConfigLocation := lastWrite isConfigTok s.ConfigLocation args } sys := by
  rw [LoadStartupArgs_cons, argsLoop_all_values args h 1 (by decide) s sys,
    ← foldl_store_Foo, ← foldl_store_Bar, ← foldl_store_Baz, ← foldl_store_ConfigLocation]

/-! ## Basic facts about `LoadConfigFile` -/

theorem defaultFoo_ne : defaultFoo ≠ "" := by decide
theorem defaultBar_ne : defaultBar ≠ "" := by decide
theorem defaultBaz_ne : defaultBaz ≠ "" := by decide
theorem defaultConfigLocation_ne : defaultConfigLocation ≠ "" := by decide

theorem resolvedLocation_ne (s : SettingsRec) : resolvedLocation s ≠ "" := by
  unfold resolvedLocation
  split
  · exact defaultConfigLocation_ne
  · assumption

theorem pick_ne (arg file dflt : String) (h : dflt ≠ "") : pick arg file dflt ≠ "" := by
  unfold pick
  split
  · assumption
  · split
    · assumption
    · exact h

theorem orDefault_ne (arg dflt : String) (h : dflt ≠ "") : orDefault arg dflt ≠ "" := by
  unfold orDefault
  split
  · assumption
  · exact h

theorem pick_empty_file (arg dflt : String) : pick arg "" dflt = orDefault arg dflt := by
  simp [pick, orDefault]

/-- The error path of `LoadConfigFile` when the file cannot be read. -/
theorem LoadConfigFile_noFile (env : Env) (s : SettingsRec) (sys : Sys)
    (h : env.readFile (resolvedLocation s) = none) :
    LoadConfigFile env s sys =
      ({ Foo := orDefault s.Foo defaultFoo, Bar := orDefault s.Bar defaultBar,
         Baz := orDefault s.Baz defaultBaz, ConfigLocation := resolvedLocation s },
       some .errNoFile,
       { sys with reads := sys.reads ++ [resolvedLocation s] }) := by
  obtain ⟨foo, bar, baz, loc⟩ := s
  by_cases hl : loc = "" <;> by_cases hf : foo = "" <;> by_cases hb : bar = "" <;>
    by_cases hz : baz = "" <;>
    simp_all [LoadConfigFile, resolvedLocation, deferredDefaults, orDefault]

/-- The error path of `LoadConfigFile` when the file is read but not decoded. -/
theorem LoadConfigFile_malformed (env : Env) (s : SettingsRec) (sys : Sys) (bytes : String)
    (h : env.readFile (resolvedLocation s) = some bytes)
    (hd : (env.unmarshal bytes {}).2 = true) :
    LoadConfigFile env s sys =
      ({ Foo := orDefault s.Foo defaultFoo, Bar := orDefault s.Bar defaultBar,
         Baz := orDefault s.Baz defaultBaz, ConfigLocation := resolvedLocation s },
       some .errUnmarshalYAML,
       { sys with reads := sys.reads ++ [resolvedLocation s] }) := by
  obtain ⟨foo, bar, baz, loc⟩ := s
  by_cases hl : loc = "" <;> by_cases hf : foo = "" <;> by_cases hb : bar = "" <;>
    by_cases hz : baz = "" <;>
    simp_all [LoadConfigFile, resolvedLocation, deferredDefaults, orDefault]

/-- The success path of `LoadConfigFile`. -/
theorem LoadConfigFile_decoded (env : Env) (s : SettingsRec) (sys : Sys) (bytes : String)
    (h : env.readFile (resolvedLocation s) = some bytes)
    (hd : (env.unmarshal bytes {}).2 = false) :
    LoadConfigFile env s sys =
      ({ Foo := pick s.Foo (env.unmarshal bytes {}).1.Foo defaultFoo,
         Bar := pick s.Bar (env.unmarshal bytes {}).1.Bar defaultBar,
         Baz := pick s.Baz (env.unmarshal bytes {}).1.Baz defaultBaz,
         ConfigLocation := resolvedLocation s },
       none,
       { sys with reads := sys.reads ++ [resolvedLocation s] }) := by
  obtain ⟨foo, bar, baz, loc⟩ := s
  generalize hfc : env.unmarshal bytes {} = fc at hd ⊢
  obtain ⟨⟨ffoo, fbar, fbaz, floc⟩, bad⟩ := fc
  simp only at hd
  subst hd
  by_cases hl : loc = "" <;> by_cases hf : foo = "" <;> by_cases hb : bar = "" <;>
    by_cases hz : baz = "" <;> by_cases hff : ffoo = "" <;> by_cases hfb : fbar = "" <;>
    by_cases hfz : fbaz = "" <;>
    simp_all [LoadConfigFile, resolvedLocation, deferredDefaults, pick]

/-- Once the parser has returned, `Load` is `LoadConfigFile` on the parsed record. -/
theorem Load_of_returned (env : Env) (s0 s1 : SettingsRec) (osArgs : List String)
    (sys sys1 : Sys) (h : LoadStartupArgs s0 osArgs sys = .returned s1 sys1) :
    Load env s0 osArgs sys =
      .returned ((LoadConfigFile env s1 sys1).1, (LoadConfigFile env s1 sys1).2.1)
        (LoadConfigFile env s1 sys1).2.2 := by
  unfold Load
  rw [h]

/-- When the parser ends the process, so does `Load`, in the same state. -/
theorem Load_of_exited (env : Env) (s0 : SettingsRec) (osArgs : List String)
    (sys sys1 : Sys) (code : Int) (h : LoadStartupArgs s0 osArgs sys = .exited code sys1) :
    Load env s0 osArgs sys = .exited code sys1 := by
  unfold Load
  rw [h]

/-- The three ways `LoadConfigFile` can go, by what the environment does at
the resolved path. -/
theorem readFile_cases (env : Env) (loc : String) :
    env.readFile loc = none ∨
    (∃ bytes, env.readFile loc = some bytes ∧ (env.unmarshal bytes {}).2 = true) ∨
    (∃ bytes, env.readFile loc = some bytes ∧ (env.unmarshal bytes {}).2 = false) := by
  cases hr : env.readFile loc with
  | none => exact Or.inl rfl
  | some bytes =>
    cases hd : (env.unmarshal bytes {}).2 with
    | true => exact Or.inr (Or.inl ⟨bytes, rfl, hd⟩)
    | false => exact Or.inr (Or.inr ⟨bytes, rfl, hd⟩)

/-! ## Theorems about `Load` -/

/-- C1: for every initial record, every argument vector on which the parser
returns, and every behaviour of the file system and decoder, `Load` returns
and the fields `Foo`, `Bar`, `Baz` and `ConfigLocation` of the final record
are all non-empty, with or without an error. -/
theorem Load_fields_nonempty (env : Env) (s0 s1 : SettingsRec) (osArgs : List String)
    (sys sys1 : Sys) (h : LoadStartupArgs s0 osArgs sys = .returned s1 sys1) :
    ∃ r err sys2, Load env s0 osArgs sys = .returned (r, err) sys2 ∧
      r.Foo ≠ "" ∧ r.Bar ≠ "" ∧ r.Baz ≠ "" ∧ r.ConfigLocation ≠ "" := by
  rw [Load_of_returned env s0 s1 osArgs sys sys1 h]
  refine ⟨_, _, _, rfl, ?_⟩
  rcases readFile_cases env (resolvedLocation s1) with hr | ⟨bytes, hr, hd⟩ | ⟨bytes, hr, hd⟩
  · rw [LoadConfigFile_noFile env s1 sys1 hr]
    exact ⟨orDefault_ne _ _ defaultFoo_ne, orDefault_ne _ _ defaultBar_ne,
      orDefault_ne _ _ defaultBaz_ne, resolvedLocation_ne s1⟩
  · rw [LoadConfigFile_malformed env s1 sys1 bytes hr hd]
    exact ⟨orDefault_ne _ _ defaultFoo_ne, orDefault_ne _ _ defaultBar_ne,
      orDefault_ne _ _ defaultBaz_ne, resolvedLocation_ne s1⟩
  · rw [LoadConfigFile_decoded env s1 sys1 bytes hr hd]
    exact ⟨pick_ne _ _ _ defaultFoo_ne, pick_ne _ _ _ defaultBar_ne,
      pick_ne _ _ _ defaultBaz_ne, resolvedLocation_ne s1⟩

/-- C1, on a record that starts with a value, the arguments `-b=Q --foo=` and
the broken file. -/
theorem Load_fields_nonempty_witness :
    LoadStartupArgs { Baz := "old" } ["democonfig", "-b=Q", "--foo="] {} =
        .returned { Bar := "Q", Baz := "old" } {} ∧
      ∃ r err sys2,
        Load envBrokenFile { Baz := "old" } ["democonfig", "-b=Q", "--foo="] {} =
          .returned (r, err) sys2 ∧
        r.Foo ≠ "" ∧ r.Bar ≠ "" ∧ r.Baz ≠ "" ∧ r.ConfigLocation ≠ "" :=
  ⟨by decide,
   Load_fields_nonempty envBrokenFile { Baz := "old" } { Bar := "Q", Baz := "old" }
     ["democonfig", "-b=Q", "--foo="] {} {} (by decide)⟩

/-- C2: when the file is read and decoded, `Load` on a fresh record returns no
error and each of `Foo`, `Bar`, `Baz` is the parsed argument value if
non-empty, else the file value if non-empty, else the default: the two-stage
fill of the code equals the three-way rule argument > file > default. -/
theorem Load_precedence (env : Env) (s1 : SettingsRec) (osArgs : List String)
    (sys sys1 : Sys) (bytes : String)
    (h : LoadStartupArgs {} osArgs sys = .returned s1 sys1)
    (hr : env.readFile (resolvedLocation s1) = some bytes)
    (hd : (env.unmarshal bytes {}).2 = false) :
    ∃ r sys2, Load env {} osArgs sys = .returned (r, none) sys2 ∧
      r.Foo = pick s1.Foo (env.unmarshal bytes {}).1.Foo defaultFoo ∧
      r.Bar = pick s1.Bar (env.unmarshal bytes {}).1.Bar defaultBar ∧
      r.Baz = pick s1.Baz (env.unmarshal bytes {}).1.Baz defaultBaz := by
  rw [Load_of_returned env {} s1 osArgs sys sys1 h,
    LoadConfigFile_decoded env s1 sys1 bytes hr hd]
  exact ⟨_, _, rfl, rfl, rfl, rfl⟩

/-- C2, scenario 3 of the specification: `--foo=X --config=./alt.yml` with the
file `foo: A`, `bar: B` gives `X`, `B`, `defaultBaz`. -/
theorem Load_precedence_witness :
    Load envAltFile {} ["democonfig", "--foo=X", "--config=./alt.yml"] {} =
        .returned
          ({ Foo := "X", Bar := "B", Baz := "defaultBaz", ConfigLocation := "./alt.yml" }, none)
          { reads := ["./alt.yml"] } ∧
      ∃ r sys2,
        Load envAltFile {} ["democonfig", "--foo=X", "--config=./alt.yml"] {} =
          .returned (r, none) sys2 ∧
        r.Foo = pick "X" "A" defaultFoo ∧ r.Bar = pick "" "B" defaultBar ∧
        r.Baz = pick "" "" defaultBaz :=
  ⟨by decide,
   Load_precedence envAltFile { Foo := "X", ConfigLocation := "./alt.yml" }
     ["democonfig", "--foo=X", "--config=./alt.yml"] {} {} "foo: A\nbar: B"
     (by decide) (by decide) (by decide)⟩

/-- C3: when the file cannot be read, or is read but cannot be decoded, `Load`
still returns a merged record together with the error: each of `Foo`, `Bar`,
`Baz` is the parsed argument value if non-empty and the default otherwise,
`ConfigLocation` is the resolved path, and the record does not depend on
anything the decoder may have written before failing. -/
theorem Load_file_error (env : Env) (s0 s1 : SettingsRec) (osArgs : List String)
    (sys sys1 : Sys) (h : LoadStartupArgs s0 osArgs sys = .returned s1 sys1)
    (hf : env.readFile (resolvedLocation s1) = none ∨
      ∃ bytes, env.readFile (resolvedLocation s1) = some bytes ∧
        (env.unmarshal bytes {}).2 = true) :
    ∃ err sys2,
      Load env s0 osArgs sys =
        .returned
          ({ Foo := orDefault s1.Foo defaultFoo, Bar := orDefault s1.Bar defaultBar,
             Baz := orDefault s1.Baz defaultBaz, ConfigLocation := resolvedLocation s1 },
           some err) sys2 := by
  rw [Load_of_returned env s0 s1 osArgs sys sys1 h]
  rcases hf with hr | ⟨bytes, hr, hd⟩
  · rw [LoadConfigFile_noFile env s1 sys1 hr]
    exact ⟨_, _, rfl⟩
  · rw [LoadConfigFile_malformed env s1 sys1 bytes hr hd]
    exact ⟨_, _, rfl⟩

/-- C3, scenario 4 of the specification: `-b=Q` with an undecodable file at the
default path gives `defaultFoo`, `Q`, `defaultBaz`, `./democonfig.yml` and the
decoding error; the values the decoder wrote before failing are not used. -/
theorem Load_file_error_witness :
    Load envBrokenFile {} ["democonfig", "-b=Q"] {} =
        .returned
          ({ Foo := "defaultFoo", Bar := "Q", Baz := "defaultBaz",
             ConfigLocation := "./democonfig.yml" }, some .errUnmarshalYAML)
          { reads := ["./democonfig.yml"] } ∧
      ∃ err sys2,
        Load envBrokenFile {} ["democonfig", "-b=Q"] {} =
          .returned
            ({ Foo := orDefault "" defaultFoo, Bar := orDefault "Q" defaultBar,
               Baz := orDefault "" defaultBaz,
               ConfigLocation := resolvedLocation { Bar := "Q" } }, some err) sys2 :=
  ⟨by decide,
   Load_file_error envBrokenFile {} { Bar := "Q" } ["democonfig", "-b=Q"] {} {} (by decide)
     (Or.inr ⟨"::: not yaml :::", by decide, by decide⟩)⟩

/-- C4: when the parser returns, `Load` reads exactly the resolved path and its
error is `errNoFile` iff that read fails, `errUnmarshalYAML` iff the read
succeeds and the decoding fails, and absent iff both succeed. -/
theorem Load_error_iff (env : Env) (s0 s1 : SettingsRec) (osArgs : List String)
    (sys sys1 : Sys) (h : LoadStartupArgs s0 osArgs sys = .returned s1 sys1) :
    ∃ r err sys2, Load env s0 osArgs sys = .returned (r, err) sys2 ∧
      sys2.reads = sys1.reads ++ [resolvedLocation s1] ∧
      (err = some .errNoFile ↔ env.readFile (resolvedLocation s1) = none) ∧
      (err = some .errUnmarshalYAML ↔
        ∃ bytes, env.readFile (resolvedLocation s1) = some bytes ∧
          (env.unmarshal bytes {}).2 = true) ∧
      (err = none ↔
        ∃ bytes, env.readFile (resolvedLocation s1) = some bytes ∧
          (env.unmarshal bytes {}).2 = false) := by
  rw [Load_of_returned env s0 s1 osArgs sys sys1 h]
  refine ⟨_, _, _, rfl, ?_⟩
  rcases readFile_cases env (resolvedLocation s1) with hr | ⟨bytes, hr, hd⟩ | ⟨bytes, hr, hd⟩
  · rw [LoadConfigFile_noFile env s1 sys1 hr]
    simp [hr]
  · rw [LoadConfigFile_malformed env s1 sys1 bytes hr hd]
    simp [hr, hd]
  · rw [LoadConfigFile_decoded env s1 sys1 bytes hr hd]
    simp [hr, hd]

/-- C4, scenario 1 of the specification: no arguments and no file at
`./democonfig.yml` returns `errNoFile` with all defaults. -/
theorem Load_error_iff_witness :
    Load envNoFile {} ["democonfig"] {} =
        .returned
          ({ Foo := "defaultFoo", Bar := "defaultBar", Baz := "defaultBaz",
             ConfigLocation := "./democonfig.yml" }, some .errNoFile)
          { reads := ["./democonfig.yml"] } ∧
      ∃ r err sys2, Load envNoFile {} ["democonfig"] {} = .returned (r, err) sys2 ∧
        sys2.reads = ([] : List String) ++ [resolvedLocation {}] ∧
        (err = some .errNoFile ↔ envNoFile.readFile (resolvedLocation {}) = none) ∧
        (err = some .errUnmarshalYAML ↔
          ∃ bytes, envNoFile.readFile (resolvedLocation {}) = some bytes ∧
            (envNoFile.unmarshal bytes {}).2 = true) ∧
        (err = none ↔
          ∃ bytes, envNoFile.readFile (resolvedLocation {}) = some bytes ∧
            (envNoFile.unmarshal bytes {}).2 = false) :=
  ⟨by decide, Load_error_iff envNoFile {} {} ["democonfig"] {} {} (by decide)⟩

/-- C6: for every argument vector on which the parser returns, `Load` with an
unreadable file and `Load` with a readable file that decodes to a record with
empty `Foo`, `Bar` and `Baz` end with the same record and the same process
state; only the error (`errNoFile` against none) differs. -/
theorem Load_missing_eq_empty (env1 env2 : Env) (s0 s1 : SettingsRec)
    (osArgs : List String) (sys sys1 : Sys) (bytes : String)
    (h : LoadStartupArgs s0 osArgs sys = .returned s1 sys1)
    (h1 : env1.readFile (resolvedLocation s1) = none)
    (h2 : env2.readFile (resolvedLocation s1) = some bytes)
    (hd : (env2.unmarshal bytes {}).2 = false)
    (hfoo : (env2.unmarshal bytes {}).1.Foo = "")
    (hbar : (env2.unmarshal bytes {}).1.Bar = "")
    (hbaz : (env2.unmarshal bytes {}).1.Baz = "") :
    ∃ r sys2,
      Load env1 s0 osArgs sys = .returned (r, some .errNoFile) sys2 ∧
      Load env2 s0 osArgs sys = .returned (r, none) sys2 := by
  rw [Load_of_returned env1 s0 s1 osArgs sys sys1 h,
    Load_of_returned env2 s0 s1 osArgs sys sys1 h,
    LoadConfigFile_noFile env1 s1 sys1 h1,
    LoadConfigFile_decoded env2 s1 sys1 bytes h2 hd, hfoo, hbar, hbaz]
  simp only [pick_empty_file]
  exact ⟨_, _, rfl, rfl⟩

/-- C6, on the arguments `-z=Z --config=cfg.yml`: the missing file and the
empty file give the same record. -/
theorem Load_missing_eq_empty_witness :
    (Load envNoFile {} ["democonfig", "-z=Z", "--config=cfg.yml"] {} =
        .returned
          ({ Foo := "defaultFoo", Bar := "defaultBar", Baz := "Z",
             ConfigLocation := "cfg.yml" }, some .errNoFile) { reads := ["cfg.yml"] } ∧
      Load envEmptyFile {} ["democonfig", "-z=Z", "--config=cfg.yml"] {} =
        .returned
          ({ Foo := "defaultFoo", Bar := "defaultBar", Baz := "Z",
             ConfigLocation := "cfg.yml" }, none) { reads := ["cfg.yml"] }) ∧
      ∃ r sys2,
        Load envNoFile {} ["democonfig", "-z=Z", "--config=cfg.yml"] {} =
          .returned (r, some .errNoFile) sys2 ∧
        Load envEmptyFile {} ["democonfig", "-z=Z", "--config=cfg.yml"] {} =
          .returned (r, none) sys2 :=
  ⟨by decide,
   Load_missing_eq_empty envNoFile envEmptyFile {} { Baz := "Z", ConfigLocation := "cfg.yml" }
     ["democonfig", "-z=Z", "--config=cfg.yml"] {} {} "" (by decide) (by decide) (by decide)
     (by decide) (by decide) (by decide) (by decide)⟩

/-! ## Theorems about the parser -/

theorem lastTarget_mem (targets : String → Bool) (args : List String) (t : String)
    (h : lastTarget targets args = some t) : t ∈ args := by
  unfold lastTarget at h
  exact List.mem_of_mem_filter (List.mem_of_getLast?_eq_some h)

/-- The value of a setting after last write wins, read off the last token
that targets it: it is what the parser takes from that token, which is the
text after the first `=` whenever that text holds no further `=`. -/
theorem lastWrite_spec (targets : String → Bool) (init : String) (args : List String)
    (h : ∀ t ∈ args, isValueTok t = true) :
    match lastTarget targets args with
    | some t =>
      argValue t = some (lastWrite targets init args) ∧
        ('=' ∉ (afterFirstEq t).data → lastWrite targets init args = afterFirstEq t)
    | none => lastWrite targets init args = init := by
  unfold lastWrite
  cases hl : lastTarget targets args with
  | none => rfl
  | some t =>
    have hv : isValueTok t = true := h t (lastTarget_mem targets args t hl)
    have ha : argValue t = some (carried t) := argValue_of_value t hv
    refine ⟨ha, fun hno => ?_⟩
    have hb := argValue_eq_afterFirstEq t (isValueTok_mem t hv) hno
    rw [ha] at hb
    exact Option.some.inj hb

/-- Dropping the tokens of another class does not change the last token of a
class. -/
theorem lastTarget_filter (targets other : String → Bool) (args : List String)
    (h : ∀ t, targets t = true → other t = false) :
    lastTarget targets (args.filter (fun t => !other t)) = lastTarget targets args := by
  unfold lastTarget
  rw [List.filter_filter]
  congr 1
  apply List.filter_congr
  intro t _
  cases ht : targets t with
  | false => rfl
  | true => simp [h t ht]

theorem lastWrite_filter (targets other : String → Bool) (init : String)
    (args : List String) (h : ∀ t, targets t = true → other t = false) :
    lastWrite targets init (args.filter (fun t => !other t)) = lastWrite targets init args := by
  unfold lastWrite
  rw [lastTarget_filter targets other args h]

/-- Two vectors that agree once the tokens of class `other` are dropped give
the same last write for every other class. -/
theorem lastWrite_congr (targets other : String → Bool) (init : String)
    (args1 args2 : List String) (h : ∀ t, targets t = true → other t = false)
    (heq : args1.filter (fun t => !other t) = args2.filter (fun t => !other t)) :
    lastWrite targets init args1 = lastWrite targets init args2 := by
  rw [← lastWrite_filter targets other init args1 h, heq,
    lastWrite_filter targets other init args2 h]

/-- What `LoadConfigFile` does to a record depends on the record only through
the resolved path, and then setting by setting. -/
theorem LoadConfigFile_shape (env : Env) (loc : String) (sys : Sys) :
    ∃ (f b z : String → String) (err : Option Error), ∀ s : SettingsRec,
      resolvedLocation s = loc →
      LoadConfigFile env s sys =
        ({ Foo := f s.Foo, Bar := b s.Bar, Baz := z s.Baz, ConfigLocation := loc }, err,
         { sys with reads := sys.reads ++ [loc] }) := by
  rcases readFile_cases env loc with hr | ⟨bytes, hr, hd⟩ | ⟨bytes, hr, hd⟩
  · refine ⟨fun a => orDefault a defaultFoo, fun a => orDefault a defaultBar,
      fun a => orDefault a defaultBaz, some .errNoFile, ?_⟩
    intro s hs
    subst hs
    exact LoadConfigFile_noFile env s sys hr
  · refine ⟨fun a => orDefault a defaultFoo, fun a => orDefault a defaultBar,
      fun a => orDefault a defaultBaz, some .errUnmarshalYAML, ?_⟩
    intro s hs
    subst hs
    exact LoadConfigFile_malformed env s sys bytes hr hd
  · refine ⟨fun a => pick a (env.unmarshal bytes {}).1.Foo defaultFoo,
      fun a => pick a (env.unmarshal bytes {}).1.Bar defaultBar,
      fun a => pick a (env.unmarshal bytes {}).1.Baz defaultBaz, none, ?_⟩
    intro s hs
    subst hs
    exact LoadConfigFile_decoded env s sys bytes hr hd

/-- Two records with the same location are treated alike by `LoadConfigFile`:
same final location, same error, same process state, and the same final value
for every setting on which they agree. -/
theorem LoadConfigFile_agree (env : Env) (s t : SettingsRec) (sys : Sys)
    (hloc : s.ConfigLocation = t.ConfigLocation) :
    (LoadConfigFile env s sys).1.ConfigLocation = (LoadConfigFile env t sys).1.ConfigLocation ∧
      (LoadConfigFile env s sys).2 = (LoadConfigFile env t sys).2 ∧
      (s.Foo = t.Foo → (LoadConfigFile env s sys).1.Foo = (LoadConfigFile env t sys).1.Foo) ∧
      (s.Bar = t.Bar → (LoadConfigFile env s sys).1.Bar = (LoadConfigFile env t sys).1.Bar) ∧
      (s.Baz = t.Baz → (LoadConfigFile env s sys).1.Baz = (LoadConfigFile env t sys).1.Baz) := by
  obtain ⟨f, b, z, err, H⟩ := LoadConfigFile_shape env (resolvedLocation s) sys
  have ht : resolvedLocation t = resolvedLocation s := by
    unfold resolvedLocation
    rw [hloc]
  rw [H s rfl, H t ht]
  refine ⟨rfl, rfl, ?_, ?_, ?_⟩ <;> intro h <;> simp only [h]

/-- `Load` on a vector of value-bearing tokens, in terms of last writes. -/
theorem Load_values (env : Env) (s : SettingsRec) (prog : String) (args : List String)
    (sys : Sys) (h : ∀ t ∈ args, isValueTok t = true) :
    Load env s (prog :: args) sys =
      .returned
        ((LoadConfigFile env
            { Foo := lastWrite isFooTok s.Foo args, Bar := lastWrite isBarTok s.Bar args,
              Baz := lastWrite isBazTok s.Baz args,
              ConfigLocation := lastWrite isConfigTok s.ConfigLocation args } sys).1,
         (LoadConfigFile env
            { Foo := lastWrite isFooTok s.Foo args, Bar := lastWrite isBarTok s.Bar args,
              Baz := lastWrite isBazTok s.Baz args,
              ConfigLocation := lastWrite isConfigTok s.ConfigLocation args } sys).2.1)
        (LoadConfigFile env
            { Foo := lastWrite isFooTok s.Foo args, Bar := lastWrite isBarTok s.Bar args,
              Baz := lastWrite isBazTok s.Baz args,
              ConfigLocation := lastWrite isConfigTok s.ConfigLocation args } sys).2.2 :=
  Load_of_returned env s _ (prog :: args) sys sys (LoadStartupArgs_values s prog args sys h)

/-- C5: the parser run on the token `--foo=a=b` stores `a=`, and on
`--config=./k=v.yml` it stores `./k=`: piece 1 of `strings.SplitAfter` ends
after the second `=`, so the stored value is not the text after the first `=`
(`a=b` and `./k=v.yml`). -/
theorem LoadStartupArgs_value_with_equals :
    LoadStartupArgs {} ["democonfig", "--foo=a=b"] {} = .returned { Foo := "a=" } {} ∧
      afterFirstEq "--foo=a=b" = "a=b" ∧
      LoadStartupArgs {} ["democonfig", "--config=./k=v.yml"] {} =
        .returned { ConfigLocation := "./k=" } {} ∧
      afterFirstEq "--config=./k=v.yml" = "./k=v.yml" := by
  decide

/-- C7: when the first token outside the grammar comes after recognized tokens
none of which is an exit command, the parser prints the line
`unknown argument: ` followed by that token and exits with code 1, whatever
follows; `Load` ends the same way and no file is read.  `--foo` and `--help=x`
are outside the grammar. -/
theorem LoadStartupArgs_unknown (env : Env) (s : SettingsRec) (prog tok : String)
    (pre post : List String) (sys : Sys)
    (hpre : ∀ t ∈ pre, recognized t = true ∧ isExitTok t = false)
    (htok : recognized tok = false) :
    LoadStartupArgs s (prog :: (pre ++ tok :: post)) sys =
        .exited 1
          { stdout := sys.stdout ++ ("unknown argument: " ++ tok ++ "\n"), reads := sys.reads } ∧
      Load env s (prog :: (pre ++ tok :: post)) sys =
        .exited 1
          { stdout := sys.stdout ++ ("unknown argument: " ++ tok ++ "\n"), reads := sys.reads } ∧
      recognized "--foo" = false ∧ recognized "--help=x" = false := by
  have hval : ∀ t ∈ pre, isValueTok t = true := by
    intro t ht
    obtain ⟨hr, he⟩ := hpre t ht
    simpa [recognized, he] using hr
  have hparse :
      LoadStartupArgs s (prog :: (pre ++ tok :: post)) sys =
        .exited 1
          { stdout := sys.stdout ++ ("unknown argument: " ++ tok ++ "\n"),
            reads := sys.reads } := by
    rw [LoadStartupArgs_cons, argsLoop_values pre (tok :: post) hval 1 (by decide) s sys,
      argsLoop, if_neg (by omega), processArg_unknown tok _ sys htok]
    rfl
  exact ⟨hparse, Load_of_exited env s _ sys _ 1 hparse, by decide, by decide⟩

/-- C7, scenario 5 of the specification with a value token in front and more
tokens behind: `--bar=1 --unknown --help`. -/
theorem LoadStartupArgs_unknown_witness :
    (∀ t ∈ ["--bar=1"], recognized t = true ∧ isExitTok t = false) ∧
      recognized "--unknown" = false ∧
      LoadStartupArgs {} ["democonfig", "--bar=1", "--unknown", "--help"] {} =
        .exited 1 { stdout := "unknown argument: --unknown\n", reads := [] } ∧
      Load envEmptyFile {} ["democonfig", "--bar=1", "--unknown", "--help"] {} =
        .exited 1 { stdout := "unknown argument: --unknown\n", reads := [] } :=
  ⟨by decide, by decide,
   (LoadStartupArgs_unknown envEmptyFile {} "democonfig" "--unknown" ["--bar=1"] ["--help"] {}
     (by decide) (by decide)).1,
   (LoadStartupArgs_unknown envEmptyFile {} "democonfig" "--unknown" ["--bar=1"] ["--help"] {}
     (by decide) (by decide)).2.1⟩

/-- C8: an exit command that comes after value-bearing tokens only ends the
parser with exit code 0 at that command, after printing the text of the
command; the result does not depend on the tokens that follow, `Load` ends
the same way and no file is read. -/
theorem LoadStartupArgs_exit_command (env : Env) (s : SettingsRec) (prog tok : String)
    (pre post : List String) (sys : Sys)
    (hpre : ∀ t ∈ pre, isValueTok t = true)
    (htok : tok = "--help" ∨ tok = "-h" ∨ tok = "--version" ∨ tok = "-V") :
    LoadStartupArgs s (prog :: (pre ++ tok :: post)) sys =
        .exited 0 { stdout := sys.stdout ++ exitText tok, reads := sys.reads } ∧
      Load env s (prog :: (pre ++ tok :: post)) sys =
        .exited 0 { stdout := sys.stdout ++ exitText tok, reads := sys.reads } := by
  have hparse :
      LoadStartupArgs s (prog :: (pre ++ tok :: post)) sys =
        .exited 0 { stdout := sys.stdout ++ exitText tok, reads := sys.reads } := by
    rw [LoadStartupArgs_cons, argsLoop_values pre (tok :: post) hpre 1 (by decide) s sys,
      argsLoop, if_neg (by omega)]
    rcases htok with h | h | h | h
    · rw [processArg_help tok _ sys (Or.inl h)]
      subst h
      simp [exitText, Sys.print, String.append_assoc]
    · rw [processArg_help tok _ sys (Or.inr h)]
      subst h
      simp [exitText, Sys.print, String.append_assoc]
    · rw [processArg_version tok _ sys (Or.inl h)]
      subst h
      simp [exitText, Sys.print]
    · rw [processArg_version tok _ sys (Or.inr h)]
      subst h
      simp [exitText, Sys.print]
  exact ⟨hparse, Load_of_exited env s _ sys _ 0 hparse⟩

/-- C8, on `-f=1 -V --unknown`: exit code 0 with the banner, although an
unrecognized token follows. -/
theorem LoadStartupArgs_exit_command_witness :
    (∀ t ∈ ["-f=1"], isValueTok t = true) ∧
      LoadStartupArgs {} ["democonfig", "-f=1", "-V", "--unknown"] {} =
        .exited 0 { stdout := "democonfig 0.0.1 built on 2021-08-01\n", reads := [] } ∧
      Load envEmptyFile {} ["democonfig", "-f=1", "-V", "--unknown"] {} =
        .exited 0 { stdout := "democonfig 0.0.1 built on 2021-08-01\n", reads := [] } :=
  ⟨by decide,
   (LoadStartupArgs_exit_command envEmptyFile {} "democonfig" "-V" ["-f=1"] ["--unknown"] {}
     (by decide) (by decide)).1,
   (LoadStartupArgs_exit_command envEmptyFile {} "democonfig" "-V" ["-f=1"] ["--unknown"] {}
     (by decide) (by decide)).2⟩

/-- The order in which the parser writes: on a vector of value-bearing tokens
the parser returns, and each of `Foo`, `Bar`, `Baz`, `ConfigLocation` holds
what `strings.SplitAfter(v, "=")[1]` takes from the last token, in vector
order, that targets the setting in its long or short form, which is the text
after the first `=` of that token whenever that text holds no further `=`; a
setting that no token targets keeps the value it had. -/
theorem LoadStartupArgs_last_wins (s : SettingsRec) (prog : String) (args : List String)
    (sys : Sys) (h : ∀ t ∈ args, isValueTok t = true) :
    ∃ r, LoadStartupArgs s (prog :: args) sys = .returned r sys ∧
      (match lastTarget isFooTok args with
        | some t =>
          argValue t = some r.Foo ∧ ('=' ∉ (afterFirstEq t).data → r.Foo = afterFirstEq t)
        | none => r.Foo = s.Foo) ∧
      (match lastTarget isBarTok args with
        | some t =>
          argValue t = some r.Bar ∧ ('=' ∉ (afterFirstEq t).data → r.Bar = afterFirstEq t)
        | none => r.Bar = s.Bar) ∧
      (match lastTarget isBazTok args with
        | some t =>
          argValue t = some r.Baz ∧ ('=' ∉ (afterFirstEq t).data → r.Baz = afterFirstEq t)
        | none => r.Baz = s.Baz) ∧
      (match lastTarget isConfigTok args with
        | some t =>
          argValue t = some r.ConfigLocation ∧
            ('=' ∉ (afterFirstEq t).data → r.ConfigLocation = afterFirstEq t)
        | none => r.ConfigLocation = s.ConfigLocation) :=
  ⟨_, LoadStartupArgs_values s prog args sys h,
    lastWrite_spec isFooTok s.Foo args h, lastWrite_spec isBarTok s.Bar args h,
    lastWrite_spec isBazTok s.Baz args h,
    lastWrite_spec isConfigTok s.ConfigLocation args h⟩

/-- The order of writes on `--foo=1 -b=2 -f=3 --bar=4 -f=5` from a record with
`Baz` set: the last foo token is `-f=5` and the last bar token is `--bar=4`, so `Foo` is `5`
and `Bar` is `4`; `Baz` and `ConfigLocation` are untouched. -/
theorem LoadStartupArgs_last_wins_witness :
    ((∀ t ∈ ["--foo=1", "-b=2", "-f=3", "--bar=4", "-f=5"], isValueTok t = true) ∧
      lastTarget isFooTok ["--foo=1", "-b=2", "-f=3", "--bar=4", "-f=5"] = some "-f=5" ∧
      lastTarget isBarTok ["--foo=1", "-b=2", "-f=3", "--bar=4", "-f=5"] = some "--bar=4" ∧
      lastTarget isBazTok ["--foo=1", "-b=2", "-f=3", "--bar=4", "-f=5"] = none ∧
      lastTarget isConfigTok ["--foo=1", "-b=2", "-f=3", "--bar=4", "-f=5"] = none ∧
      LoadStartupArgs { Baz := "kept" }
          ["democonfig", "--foo=1", "-b=2", "-f=3", "--bar=4", "-f=5"] {} =
        .returned { Foo := "5", Bar := "4", Baz := "kept" } {}) ∧
      ∃ r, LoadStartupArgs { Baz := "kept" }
          ["democonfig", "--foo=1", "-b=2", "-f=3", "--bar=4", "-f=5"] {} = .returned r {} ∧
        (argValue "-f=5" = some r.Foo ∧
          ('=' ∉ (afterFirstEq "-f=5").data → r.Foo = afterFirstEq "-f=5")) ∧
        (argValue "--bar=4" = some r.Bar ∧
          ('=' ∉ (afterFirstEq "--bar=4").data → r.Bar = afterFirstEq "--bar=4")) ∧
        r.Baz = "kept" ∧ r.ConfigLocation = "" :=
  ⟨by decide,
   LoadStartupArgs_last_wins { Baz := "kept" } "democonfig"
     ["--foo=1", "-b=2", "-f=3", "--bar=4", "-f=5"] {} (by decide)⟩

/-- C9: on the vector `--foo=1 -b=2 -f=a=b`, made of value-bearing tokens
only, the last token that targets foo is `-f=a=b` and the value it carries,
the text after its first `=`, is `a=b`; the parser leaves `a=` in `Foo`.  The
earlier `--foo=1` is overridden and `Bar` is `2`, so the order of the writes is
right and the stored text is wrong: piece 1 of `strings.SplitAfter` ends after
the second `=`. -/
theorem LoadStartupArgs_last_value_with_equals :
    (∀ t ∈ ["--foo=1", "-b=2", "-f=a=b"], isValueTok t = true) ∧
      lastTarget isFooTok ["--foo=1", "-b=2", "-f=a=b"] = some "-f=a=b" ∧
      afterFirstEq "-f=a=b" = "a=b" ∧
      LoadStartupArgs {} ["democonfig", "--foo=1", "-b=2", "-f=a=b"] {} =
        .returned { Foo := "a=", Bar := "2" } {} ∧
      LoadStartupArgs {} ["democonfig", "--foo=1", "-b=2", "-f=a=b"] {} ≠
        .returned { Foo := "a=b", Bar := "2" } {} := by
  decide

/-- C10: for two vectors of value-bearing tokens and the same file system and
decoder, `Load` on a fresh record returns for both, and if the vectors agree
once their foo tokens are dropped then the final `Bar`, `Baz`,
`ConfigLocation` and the error agree; likewise for the bar tokens (`Foo`,
`Baz`, `ConfigLocation`, error) and the baz tokens (`Foo`, `Bar`,
`ConfigLocation`, error). -/
theorem Load_independence (env : Env) (prog : String) (args1 args2 : List String)
    (sys : Sys) (h1 : ∀ t ∈ args1, isValueTok t = true)
    (h2 : ∀ t ∈ args2, isValueTok t = true) :
    ∃ r1 e1 sys1 r2 e2 sys2,
      Load env {} (prog :: args1) sys = .returned (r1, e1) sys1 ∧
      Load env {} (prog :: args2) sys = .returned (r2, e2) sys2 ∧
      (args1.filter (fun t => !isFooTok t) = args2.filter (fun t => !isFooTok t) →
        r1.Bar = r2.Bar ∧ r1.Baz = r2.Baz ∧ r1.ConfigLocation = r2.ConfigLocation ∧
          e1 = e2) ∧
      (args1.filter (fun t => !isBarTok t) = args2.filter (fun t => !isBarTok t) →
        r1.Foo = r2.Foo ∧ r1.Baz = r2.Baz ∧ r1.ConfigLocation = r2.ConfigLocation ∧
          e1 = e2) ∧
      (args1.filter (fun t => !isBazTok t) = args2.filter (fun t => !isBazTok t) →
        r1.Foo = r2.Foo ∧ r1.Bar = r2.Bar ∧ r1.ConfigLocation = r2.ConfigLocation ∧
          e1 = e2) := by
  refine ⟨_, _, _, _, _, _, Load_values env {} prog args1 sys h1,
    Load_values env {} prog args2 sys h2, ?_, ?_, ?_⟩
  · intro heq
    have hb := lastWrite_congr isBarTok isFooTok "" args1 args2 isBarTok_not_foo heq
    have hz := lastWrite_congr isBazTok isFooTok "" args1 args2 isBazTok_not_foo heq
    have hc := lastWrite_congr isConfigTok isFooTok "" args1 args2 isConfigTok_not_foo heq
    obtain ⟨a1, a2, _, a4, a5⟩ := LoadConfigFile_agree env
      { Foo := lastWrite isFooTok "" args1, Bar := lastWrite isBarTok "" args1,
        Baz := lastWrite isBazTok "" args1,
        ConfigLocation := lastWrite isConfigTok "" args1 }
      { Foo := lastWrite isFooTok "" args2, Bar := lastWrite isBarTok "" args2,
        Baz := lastWrite isBazTok "" args2,
        ConfigLocation := lastWrite isConfigTok "" args2 } sys hc
    exact ⟨a4 hb, a5 hz, a1, congrArg Prod.fst a2⟩
  · intro heq
    have hf := lastWrite_congr isFooTok isBarTok "" args1 args2 isFooTok_not_bar heq
    have hz := lastWrite_congr isBazTok isBarTok "" args1 args2 isBazTok_not_bar heq
    have hc := lastWrite_congr isConfigTok isBarTok "" args1 args2 isConfigTok_not_bar heq
    obtain ⟨a1, a2, a3, _, a5⟩ := LoadConfigFile_agree env
      { Foo := lastWrite isFooTok "" args1, Bar := lastWrite isBarTok "" args1,
        Baz := lastWrite isBazTok "" args1,
        ConfigLocation := lastWrite isConfigTok "" args1 }
      { Foo := lastWrite isFooTok "" args2, Bar := lastWrite isBarTok "" args2,
        Baz := lastWrite isBazTok "" args2,
        ConfigLocation := lastWrite isConfigTok "" args2 } sys hc
    exact ⟨a3 hf, a5 hz, a1, congrArg Prod.fst a2⟩
  · intro heq
    have hf := lastWrite_congr isFooTok isBazTok "" args1 args2 isFooTok_not_baz heq
    have hb := lastWrite_congr isBarTok isBazTok "" args1 args2 isBarTok_not_baz heq
    have hc := lastWrite_congr isConfigTok isBazTok "" args1 args2 isConfigTok_not_baz heq
    obtain ⟨a1, a2, a3, a4, _⟩ := LoadConfigFile_agree env
      { Foo := lastWrite isFooTok "" args1, Bar := lastWrite isBarTok "" args1,
        Baz := lastWrite isBazTok "" args1,
        ConfigLocation := lastWrite isConfigTok "" args1 }
      { Foo := lastWrite isFooTok "" args2, Bar := lastWrite isBarTok "" args2,
        Baz := lastWrite isBazTok "" args2,
        ConfigLocation := lastWrite isConfigTok "" args2 } sys hc
    exact ⟨a3 hf, a4 hb, a1, congrArg Prod.fst a2⟩

/-- C10, on `--foo=1 -b=2 -c=./alt.yml` against `-b=2 -f=9 -c=./alt.yml --foo=`
with the file `foo: A`, `bar: B`: the vectors differ in their foo tokens only,
and only the final `Foo` differs (`1` against `A`). -/
theorem Load_independence_witness :
    ((∀ t ∈ ["--foo=1", "-b=2", "-c=./alt.yml"], isValueTok t = true) ∧
      (∀ t ∈ ["-b=2", "-f=9", "-c=./alt.yml", "--foo="], isValueTok t = true) ∧
      ["--foo=1", "-b=2", "-c=./alt.yml"].filter (fun t => !isFooTok t) =
        ["-b=2", "-f=9", "-c=./alt.yml", "--foo="].filter (fun t => !isFooTok t) ∧
      Load envAltFile {} ["democonfig", "--foo=1", "-b=2", "-c=./alt.yml"] {} =
        .returned
          ({ Foo := "1", Bar := "2", Baz := "defaultBaz", ConfigLocation := "./alt.yml" }, none)
          { reads := ["./alt.yml"] } ∧
      Load envAltFile {} ["democonfig", "-b=2", "-f=9", "-c=./alt.yml", "--foo="] {} =
        .returned
          ({ Foo := "A", Bar := "2", Baz := "defaultBaz", ConfigLocation := "./alt.yml" }, none)
          { reads := ["./alt.yml"] }) ∧
      ∃ r1 e1 sys1 r2 e2 sys2,
        Load envAltFile {} ("democonfig" :: ["--foo=1", "-b=2", "-c=./alt.yml"]) {} =
          .returned (r1, e1) sys1 ∧
        Load envAltFile {} ("democonfig" :: ["-b=2", "-f=9", "-c=./alt.yml", "--foo="]) {} =
          .returned (r2, e2) sys2 ∧
        r1.Bar = r2.Bar ∧ r1.Baz = r2.Baz ∧ r1.ConfigLocation = r2.ConfigLocation ∧
          e1 = e2 :=
  ⟨by decide,
   match Load_independence envAltFile "democonfig" ["--foo=1", "-b=2", "-c=./alt.yml"]
     ["-b=2", "-f=9", "-c=./alt.yml", "--foo="] {} (by decide) (by decide) with
   | ⟨r1, e1, sys1, r2, e2, sys2, ha, hb, hfoo, _, _⟩ =>
     ⟨r1, e1, sys1, r2, e2, sys2, ha, hb, hfoo (by decide)⟩⟩

/-! ## Every way the parser can end -/

/-- One step of the loop either stores a value-bearing token without
printing, or prints and exits in one of three ways; it never panics. -/
theorem processArg_outcome (v : String) (s : SettingsRec) (sys : Sys) :
    (isValueTok v = true ∧ processArg v s sys = .returned (store v s) sys) ∨
      ((v = "--version" ∨ v = "-V") ∧ processArg v s sys = .exited 0 (sys.print banner)) ∨
      ((v = "--help" ∨ v = "-h") ∧
        processArg v s sys = .exited 0 ((sys.print banner).print (helpMessage ++ "\n"))) ∨
      (recognized v = false ∧
        processArg v s sys = .exited 1 (sys.print ("unknown argument: " ++ v ++ "\n"))) := by
  by_cases h1 : v = "--version" ∨ v = "-V"
  · exact Or.inr (Or.inl ⟨h1, processArg_version v s sys h1⟩)
  · by_cases h2 : v = "--help" ∨ v = "-h"
    · exact Or.inr (Or.inr (Or.inl ⟨h2, processArg_help v s sys h2⟩))
    · cases hv : isValueTok v with
      | true => exact Or.inl ⟨rfl, processArg_value v s sys hv⟩
      | false =>
        have he : isExitTok v = false := by
          simp only [isExitTok, decide_eq_false_iff_not]
          rintro (h | h | h | h)
          · exact h1 (Or.inl h)
          · exact h1 (Or.inr h)
          · exact h2 (Or.inl h)
          · exact h2 (Or.inr h)
        have hr : recognized v = false := by simp [recognized, he, hv]
        exact Or.inr (Or.inr (Or.inr ⟨hr, processArg_unknown v s sys hr⟩))

/-- A loop that returns has seen value-bearing tokens only and has printed
nothing. -/
theorem argsLoop_returned (args : List String) (i : Nat) (hi : i ≠ 0) (s s1 : SettingsRec)
    (sys sys1 : Sys) (h : argsLoop i args s sys = .returned s1 sys1) :
    (∀ t ∈ args, isValueTok t = true) ∧ sys1 = sys := by
  induction args generalizing i s with
  | nil =>
    rw [argsLoop] at h
    cases h
    exact ⟨fun t ht => absurd ht (List.not_mem_nil t), rfl⟩
  | cons v rest ih =>
    rw [argsLoop, if_neg hi] at h
    rcases processArg_outcome v s sys with ⟨hv, hp⟩ | ⟨_, hp⟩ | ⟨_, hp⟩ | ⟨_, hp⟩
    · rw [hp] at h
      obtain ⟨hrest, hsys⟩ := ih (i + 1) (Nat.succ_ne_zero i) (store v s) h
      refine ⟨?_, hsys⟩
      intro t ht
      rcases List.mem_cons.1 ht with rfl | ht
      · exact hv
      · exact hrest t ht
    · rw [hp] at h
      cases h
    · rw [hp] at h
      cases h
    · rw [hp] at h
      cases h

/-- When the parser returns on some record, it returns on every record and in
every process state, prints nothing, and is last-write-wins over a vector of
value-bearing tokens. -/
theorem LoadStartupArgs_returned_shape (s0 s1 : SettingsRec) (osArgs : List String)
    (sys0 sys1 : Sys) (h : LoadStartupArgs s0 osArgs sys0 = .returned s1 sys1) :
    ∃ args : List String, (∀ t ∈ args, isValueTok t = true) ∧
      ∀ (s : SettingsRec) (sys : Sys),
        LoadStartupArgs s osArgs sys =
          .returned
            { Foo := lastWrite isFooTok s.Foo args, Bar := lastWrite isBarTok s.Bar args,
              Baz := lastWrite isBazTok s.Baz args,
              ConfigLocation := lastWrite isConfigTok s.ConfigLocation args } sys := by
  cases osArgs with
  | nil =>
    refine ⟨[], fun t ht => absurd ht (List.not_mem_nil t), ?_⟩
    intro s sys
    rfl
  | cons prog args =>
    rw [LoadStartupArgs_cons] at h
    obtain ⟨hval, _⟩ := argsLoop_returned args 1 (by decide) s0 s1 sys0 sys1 h
    exact ⟨args, hval, fun s sys => LoadStartupArgs_values s prog args sys hval⟩

/-- The parser prints nothing when it returns. -/
theorem LoadStartupArgs_returned_sys (s0 s1 : SettingsRec) (osArgs : List String)
    (sys0 sys1 : Sys) (h : LoadStartupArgs s0 osArgs sys0 = .returned s1 sys1) :
    sys1 = sys0 := by
  obtain ⟨args, _, H⟩ := LoadStartupArgs_returned_shape s0 s1 osArgs sys0 sys1 h
  rw [H s0 sys0] at h
  cases h
  rfl

/-! ## The merge, setting by setting -/

/-- The record left by `LoadConfigFile`, on every path through it: each
setting is argument, else file value, else default, and the location is the
resolved path. -/
theorem LoadConfigFile_fields (env : Env) (s : SettingsRec) (sys : Sys) :
    (LoadConfigFile env s sys).1 =
      { Foo := pick s.Foo (fileValue env (resolvedLocation s) SettingsRec.Foo) defaultFoo,
        Bar := pick s.Bar (fileValue env (resolvedLocation s) SettingsRec.Bar) defaultBar,
        Baz := pick s.Baz (fileValue env (resolvedLocation s) SettingsRec.Baz) defaultBaz,
        ConfigLocation := resolvedLocation s } := by
  rcases readFile_cases env (resolvedLocation s) with hr | ⟨bytes, hr, hd⟩ | ⟨bytes, hr, hd⟩
  · rw [LoadConfigFile_noFile env s sys hr]
    simp only [fileValue, hr, pick_empty_file]
  · rw [LoadConfigFile_malformed env s sys bytes hr hd]
    simp only [fileValue, hr, hd, if_true, pick_empty_file]
  · rw [LoadConfigFile_decoded env s sys bytes hr hd]
    simp [fileValue, hr, hd]

/-- Once the tokens of a class are dropped, the setting of that class keeps
its initial value. -/
theorem lastWrite_removed (targets : String → Bool) (init : String) (args : List String) :
    lastWrite targets init (args.filter (fun t => !targets t)) = init := by
  have hnil : (args.filter (fun t => !targets t)).filter targets = [] := by
    rw [List.filter_filter, List.filter_eq_nil_iff]
    intro t _
    cases targets t <;> simp
  unfold lastWrite lastTarget
  rw [hnil]
  rfl

/-- A last token with an empty value writes the empty string. -/
theorem lastWrite_of_last (targets : String → Bool) (init t : String) (args : List String)
    (h : lastTarget targets args = some t) : lastWrite targets init args = carried t := by
  unfold lastWrite
  rw [h]

theorem filter_values (args : List String) (p : String → Bool)
    (h : ∀ t ∈ args, isValueTok t = true) : ∀ t ∈ args.filter p, isValueTok t = true :=
  fun t ht => h t (List.mem_of_mem_filter ht)

/-- `Load` on a fresh record sees a vector of value-bearing tokens only
through the four last writes. -/
theorem Load_congr_parsed (env : Env) (prog : String) (args1 args2 : List String) (sys : Sys)
    (h1 : ∀ t ∈ args1, isValueTok t = true) (h2 : ∀ t ∈ args2, isValueTok t = true)
    (hF : lastWrite isFooTok "" args1 = lastWrite isFooTok "" args2)
    (hB : lastWrite isBarTok "" args1 = lastWrite isBarTok "" args2)
    (hZ : lastWrite isBazTok "" args1 = lastWrite isBazTok "" args2)
    (hC : lastWrite isConfigTok "" args1 = lastWrite isConfigTok "" args2) :
    Load env {} (prog :: args1) sys = Load env {} (prog :: args2) sys := by
  rw [Load_values env {} prog args1 sys h1, Load_values env {} prog args2 sys h2]
  show Step.returned
      ((LoadConfigFile env
          { Foo := lastWrite isFooTok "" args1, Bar := lastWrite isBarTok "" args1,
            Baz := lastWrite isBazTok "" args1,
            ConfigLocation := lastWrite isConfigTok "" args1 } sys).1, _) _ =
    Step.returned
      ((LoadConfigFile env
          { Foo := lastWrite isFooTok "" args2, Bar := lastWrite isBarTok "" args2,
            Baz := lastWrite isBazTok "" args2,
            ConfigLocation := lastWrite isConfigTok "" args2 } sys).1, _) _
  rw [hF, hB, hZ, hC]

/-- The final record of `Load` on a fresh record and a vector of value-bearing
tokens, setting by setting. -/
theorem Load_values_fields (env : Env) (prog : String) (args : List String) (sys : Sys)
    (h : ∀ t ∈ args, isValueTok t = true) :
    ∃ r err sys2, Load env {} (prog :: args) sys = .returned (r, err) sys2 ∧
      r.ConfigLocation = orDefault (lastWrite isConfigTok "" args) defaultConfigLocation ∧
      r.Foo = pick (lastWrite isFooTok "" args)
        (fileValue env r.ConfigLocation SettingsRec.Foo) defaultFoo ∧
      r.Bar = pick (lastWrite isBarTok "" args)
        (fileValue env r.ConfigLocation SettingsRec.Bar) defaultBar ∧
      r.Baz = pick (lastWrite isBazTok "" args)
        (fileValue env r.ConfigLocation SettingsRec.Baz) defaultBaz := by
  rw [Load_values env {} prog args sys h, LoadConfigFile_fields]
  refine ⟨_, _, _, rfl, ?_, rfl, rfl, rfl⟩
  show resolvedLocation _ = _
  unfold resolvedLocation orDefault
  by_cases hc : lastWrite isConfigTok "" args = ""
  · simp [hc]
  · simp [hc]

/-! ## Theorems about the path, empty values and the file side -/

/-- C11: when the parser returns, `Load` reads exactly one path; that path is
not empty, it is the location left by the parser when that is non-empty and
the default `./democonfig.yml` otherwise, and it is the `ConfigLocation` of the
final record.  The tokens `--config=` and `-c=` leave an empty location, so
they lead to the default path. -/
theorem Load_reads_resolved_path (env : Env) (s0 s1 : SettingsRec) (osArgs : List String)
    (sys sys1 : Sys) (h : LoadStartupArgs s0 osArgs sys = .returned s1 sys1) :
    (∃ r err path sys2, Load env s0 osArgs sys = .returned (r, err) sys2 ∧
        sys2.reads = sys.reads ++ [path] ∧ path ≠ "" ∧
        (s1.ConfigLocation ≠ "" → path = s1.ConfigLocation) ∧
        (s1.ConfigLocation = "" → path = defaultConfigLocation) ∧
        r.ConfigLocation = path) ∧
      (∀ (s : SettingsRec) (prog : String) (st : Sys),
        LoadStartupArgs s [prog, "--config="] st = .returned { s with ConfigLocation := "" } st ∧
        LoadStartupArgs s [prog, "-c="] st = .returned { s with ConfigLocation := "" } st) := by
  constructor
  · have hsys := LoadStartupArgs_returned_sys s0 s1 osArgs sys sys1 h
    subst hsys
    rw [Load_of_returned env s0 s1 osArgs sys1 sys1 h]
    obtain ⟨f, b, z, err, H⟩ := LoadConfigFile_shape env (resolvedLocation s1) sys1
    rw [H s1 rfl]
    refine ⟨_, _, resolvedLocation s1, _, rfl, rfl, resolvedLocation_ne s1, ?_, ?_, rfl⟩
    · intro hne
      unfold resolvedLocation
      rw [if_neg hne]
    · intro he
      unfold resolvedLocation
      rw [if_pos he]
  · intro s prog st
    constructor
    · rw [LoadStartupArgs_values s prog ["--config="] st (by decide)]
      rfl
    · rw [LoadStartupArgs_values s prog ["-c="] st (by decide)]
      rfl

/-- C11, on `--config=` with an empty value and no readable file: the path
read and the final `ConfigLocation` are `./democonfig.yml`. -/
theorem Load_reads_resolved_path_witness :
    (LoadStartupArgs {} ["democonfig", "--config="] {} = .returned {} {} ∧
      Load envNoFile {} ["democonfig", "--config="] {} =
        .returned
          ({ Foo := "defaultFoo", Bar := "defaultBar", Baz := "defaultBaz",
             ConfigLocation := "./democonfig.yml" }, some .errNoFile)
          { reads := ["./democonfig.yml"] } ∧
      Load envAltFile {} ["democonfig", "-c=./alt.yml"] {} =
        .returned
          ({ Foo := "A", Bar := "B", Baz := "defaultBaz", ConfigLocation := "./alt.yml" }, none)
          { reads := ["./alt.yml"] }) ∧
      ∃ r err path sys2,
        Load envNoFile {} ["democonfig", "--config="] {} = .returned (r, err) sys2 ∧
        sys2.reads = [] ++ [path] ∧ path ≠ "" ∧
        (("" : String) ≠ "" → path = "") ∧
        (("" : String) = "" → path = defaultConfigLocation) ∧
        r.ConfigLocation = path :=
  ⟨by decide,
   (Load_reads_resolved_path envNoFile {} {} ["democonfig", "--config="] {} {}
     (by decide)).1⟩

/-- C13: for two file systems and decoders under which the file at the
resolved path is read and decoded, if the two decoded records agree on `Foo`,
`Bar` and `Baz` then `Load` ends in the same way in both, with the same final
record, whatever else the decoders wrote (their target's `ConfigLocation`
included); the final `ConfigLocation` is the resolved path. -/
theorem Load_file_only_through_settings (env1 env2 : Env) (s0 s1 : SettingsRec)
    (osArgs : List String) (sys sys1 : Sys) (b1 b2 : String)
    (h : LoadStartupArgs s0 osArgs sys = .returned s1 sys1)
    (h1 : env1.readFile (resolvedLocation s1) = some b1)
    (h2 : env2.readFile (resolvedLocation s1) = some b2)
    (d1 : (env1.unmarshal b1 {}).2 = false)
    (d2 : (env2.unmarshal b2 {}).2 = false)
    (hfoo : (env1.unmarshal b1 {}).1.Foo = (env2.unmarshal b2 {}).1.Foo)
    (hbar : (env1.unmarshal b1 {}).1.Bar = (env2.unmarshal b2 {}).1.Bar)
    (hbaz : (env1.unmarshal b1 {}).1.Baz = (env2.unmarshal b2 {}).1.Baz) :
    Load env1 s0 osArgs sys = Load env2 s0 osArgs sys ∧
      ∃ r sys2, Load env1 s0 osArgs sys = .returned (r, none) sys2 ∧
        r.ConfigLocation = resolvedLocation s1 := by
  rw [Load_of_returned env1 s0 s1 osArgs sys sys1 h,
    Load_of_returned env2 s0 s1 osArgs sys sys1 h,
    LoadConfigFile_decoded env1 s1 sys1 b1 h1 d1,
    LoadConfigFile_decoded env2 s1 sys1 b2 h2 d2, hfoo, hbar, hbaz]
  exact ⟨rfl, _, _, rfl, rfl⟩

/-- C13, on `-c=./alt.yml -z=9`: a file with `foo: A`, `bar: B` and the same
file with a `configlocation` key and an unknown key give the same record, with
`ConfigLocation` `./alt.yml`. -/
theorem Load_file_only_through_settings_witness :
    ((envAltFileExtra.unmarshal "foo: A\nbar: B\nconfiglocation: /tmp/x.yml\nqux: 1" {}).1.ConfigLocation
        = "/tmp/x.yml" ∧
      (envAltFile.unmarshal "foo: A\nbar: B" {}).1.ConfigLocation = "" ∧
      Load envAltFileExtra {} ["democonfig", "-c=./alt.yml", "-z=9"] {} =
        .returned
          ({ Foo := "A", Bar := "B", Baz := "9", ConfigLocation := "./alt.yml" }, none)
          { reads := ["./alt.yml"] }) ∧
      (Load envAltFile {} ["democonfig", "-c=./alt.yml", "-z=9"] {} =
          Load envAltFileExtra {} ["democonfig", "-c=./alt.yml", "-z=9"] {} ∧
        ∃ r sys2,
          Load envAltFile {} ["democonfig", "-c=./alt.yml", "-z=9"] {} =
            .returned (r, none) sys2 ∧
          r.ConfigLocation = resolvedLocation { Baz := "9", ConfigLocation := "./alt.yml" }) :=
  ⟨by decide,
   Load_file_only_through_settings envAltFile envAltFileExtra {}
     { Baz := "9", ConfigLocation := "./alt.yml" } ["democonfig", "-c=./alt.yml", "-z=9"] {} {}
     "foo: A\nbar: B" "foo: A\nbar: B\nconfiglocation: /tmp/x.yml\nqux: 1"
     (by decide) (by decide) (by decide) (by decide) (by decide) (by decide) (by decide)
     (by decide)⟩

theorem pick_empty_arg (file dflt : String) :
    pick "" file dflt = if file ≠ "" then file else dflt := by
  simp [pick]

/-- C12: on a fresh record and a vector of value-bearing tokens whose last foo
token is `--foo=` or `-f=`, `Load` ends exactly as on the vector without its
foo tokens (same record, same error), and the final `Foo` is the file value
if non-empty and the default otherwise; likewise for bar and baz, and for
config, where the final `ConfigLocation` is the default path. -/
theorem Load_empty_value_is_unset (env : Env) (prog : String) (args : List String)
    (sys : Sys) (h : ∀ t ∈ args, isValueTok t = true) :
    ((lastTarget isFooTok args = some "--foo=" ∨ lastTarget isFooTok args = some "-f=") →
        Load env {} (prog :: args) sys =
          Load env {} (prog :: args.filter (fun t => !isFooTok t)) sys ∧
        ∃ r err sys2, Load env {} (prog :: args) sys = .returned (r, err) sys2 ∧
          r.Foo =
            if fileValue env r.ConfigLocation SettingsRec.Foo ≠ "" then
              fileValue env r.ConfigLocation SettingsRec.Foo
            else defaultFoo) ∧
      ((lastTarget isBarTok args = some "--bar=" ∨ lastTarget isBarTok args = some "-b=") →
        Load env {} (prog :: args) sys =
          Load env {} (prog :: args.filter (fun t => !isBarTok t)) sys ∧
        ∃ r err sys2, Load env {} (prog :: args) sys = .returned (r, err) sys2 ∧
          r.Bar =
            if fileValue env r.ConfigLocation SettingsRec.Bar ≠ "" then
              fileValue env r.ConfigLocation SettingsRec.Bar
            else defaultBar) ∧
      ((lastTarget isBazTok args = some "--baz=" ∨ lastTarget isBazTok args = some "-z=") →
        Load env {} (prog :: args) sys =
          Load env {} (prog :: args.filter (fun t => !isBazTok t)) sys ∧
        ∃ r err sys2, Load env {} (prog :: args) sys = .returned (r, err) sys2 ∧
          r.Baz =
            if fileValue env r.ConfigLocation SettingsRec.Baz ≠ "" then
              fileValue env r.ConfigLocation SettingsRec.Baz
            else defaultBaz) ∧
      ((lastTarget isConfigTok args = some "--config=" ∨
          lastTarget isConfigTok args = some "-c=") →
        Load env {} (prog :: args) sys =
          Load env {} (prog :: args.filter (fun t => !isConfigTok t)) sys ∧
        ∃ r err sys2, Load env {} (prog :: args) sys = .returned (r, err) sys2 ∧
          r.ConfigLocation = defaultConfigLocation) := by
  obtain ⟨r, err, sys2, hload, hloc, hfoo, hbar, hbaz⟩ := Load_values_fields env prog args sys h
  refine ⟨?_, ?_, ?_, ?_⟩
  · intro hlast
    have hw : lastWrite isFooTok "" args = "" := by
      rcases hlast with hl | hl <;> rw [lastWrite_of_last _ _ _ _ hl] <;> decide
    refine ⟨Load_congr_parsed env prog args _ sys h (filter_values args _ h) ?_ ?_ ?_ ?_,
      r, err, sys2, hload, ?_⟩
    · rw [lastWrite_removed, hw]
    · rw [lastWrite_filter isBarTok isFooTok "" args isBarTok_not_foo]
    · rw [lastWrite_filter isBazTok isFooTok "" args isBazTok_not_foo]
    · rw [lastWrite_filter isConfigTok isFooTok "" args isConfigTok_not_foo]
    · rw [hfoo, hw, pick_empty_arg]
  · intro hlast
    have hw : lastWrite isBarTok "" args = "" := by
      rcases hlast with hl | hl <;> rw [lastWrite_of_last _ _ _ _ hl] <;> decide
    refine ⟨Load_congr_parsed env prog args _ sys h (filter_values args _ h) ?_ ?_ ?_ ?_,
      r, err, sys2, hload, ?_⟩
    · rw [lastWrite_filter isFooTok isBarTok "" args isFooTok_not_bar]
    · rw [lastWrite_removed, hw]
    · rw [lastWrite_filter isBazTok isBarTok "" args isBazTok_not_bar]
    · rw [lastWrite_filter isConfigTok isBarTok "" args isConfigTok_not_bar]
    · rw [hbar, hw, pick_empty_arg]
  · intro hlast
    have hw : lastWrite isBazTok "" args = "" := by
      rcases hlast with hl | hl <;> rw [lastWrite_of_last _ _ _ _ hl] <;> decide
    refine ⟨Load_congr_parsed env prog args _ sys h (filter_values args _ h) ?_ ?_ ?_ ?_,
      r, err, sys2, hload, ?_⟩
    · rw [lastWrite_filter isFooTok isBazTok "" args isFooTok_not_baz]
    · rw [lastWrite_filter isBarTok isBazTok "" args isBarTok_not_baz]
    · rw [lastWrite_removed, hw]
    · rw [lastWrite_filter isConfigTok isBazTok "" args isConfigTok_not_baz]
    · rw [hbaz, hw, pick_empty_arg]
  · intro hlast
    have hw : lastWrite isConfigTok "" args = "" := by
      rcases hlast with hl | hl <;> rw [lastWrite_of_last _ _ _ _ hl] <;> decide
    refine ⟨Load_congr_parsed env prog args _ sys h (filter_values args _ h) ?_ ?_ ?_ ?_,
      r, err, sys2, hload, ?_⟩
    · rw [lastWrite_filter isFooTok isConfigTok "" args isFooTok_not_config]
    · rw [lastWrite_filter isBarTok isConfigTok "" args isBarTok_not_config]
    · rw [lastWrite_filter isBazTok isConfigTok "" args isBazTok_not_config]
    · rw [lastWrite_removed, hw]
    · rw [hloc, hw]
      rfl

/-- C12, on `--foo=X -c=./alt.yml -b=2 -f=` with the file `foo: A`, `bar: B`:
the last foo token has an empty value, the result is the one for
`-c=./alt.yml -b=2`, and the final `Foo` is the file value `A`. -/
theorem Load_empty_value_is_unset_witness :
    ((∀ t ∈ ["--foo=X", "-c=./alt.yml", "-b=2", "-f="], isValueTok t = true) ∧
      lastTarget isFooTok ["--foo=X", "-c=./alt.yml", "-b=2", "-f="] = some "-f=" ∧
      ["--foo=X", "-c=./alt.yml", "-b=2", "-f="].filter (fun t => !isFooTok t) =
        ["-c=./alt.yml", "-b=2"] ∧
      Load envAltFile {} ["democonfig", "--foo=X", "-c=./alt.yml", "-b=2", "-f="] {} =
        .returned
          ({ Foo := "A", Bar := "2", Baz := "defaultBaz", ConfigLocation := "./alt.yml" }, none)
          { reads := ["./alt.yml"] }) ∧
      Load envAltFile {} ("democonfig" :: ["--foo=X", "-c=./alt.yml", "-b=2", "-f="]) {} =
        Load envAltFile {}
          ("democonfig" ::
            ["--foo=X", "-c=./alt.yml", "-b=2", "-f="].filter (fun t => !isFooTok t)) {} ∧
      ∃ r err sys2,
        Load envAltFile {} ("democonfig" :: ["--foo=X", "-c=./alt.yml", "-b=2", "-f="]) {} =
          .returned (r, err) sys2 ∧
        r.Foo =
          if fileValue envAltFile r.ConfigLocation SettingsRec.Foo ≠ "" then
            fileValue envAltFile r.ConfigLocation SettingsRec.Foo
          else defaultFoo :=
  ⟨by decide,
   (Load_empty_value_is_unset envAltFile "democonfig"
     ["--foo=X", "-c=./alt.yml", "-b=2", "-f="] {} (by decide)).1 (Or.inr (by decide))⟩

/-! ## Running `Load` twice -/

/-- Writing, filling, writing again and filling again is writing and filling
once, for a fill `F` that leaves its own results alone. -/
theorem lastWrite_idem (targets : String → Bool) (init : String) (args : List String)
    (F : String → String) (hF : ∀ x, F (F x) = F x) :
    F (lastWrite targets (F (lastWrite targets init args)) args) =
      F (lastWrite targets init args) := by
  unfold lastWrite
  cases lastTarget targets args with
  | none => exact hF init
  | some t => rfl

theorem pick_idem (file dflt x : String) :
    pick (pick x file dflt) file dflt = pick x file dflt := by
  unfold pick
  by_cases hx : x = "" <;> by_cases hf : file = "" <;> by_cases hd : dflt = "" <;>
    simp [hx, hf, hd]

theorem resolve_idem (x : String) :
    (fun y : String => if y = "" then defaultConfigLocation else y)
        ((fun y : String => if y = "" then defaultConfigLocation else y) x) =
      (fun y : String => if y = "" then defaultConfigLocation else y) x := by
  by_cases hx : x = ""
  · simp [hx, defaultConfigLocation_ne]
  · simp [hx]

/-- The error of `LoadConfigFile` depends on the resolved path only. -/
theorem LoadConfigFile_err_congr (env : Env) (s t : SettingsRec) (sys st : Sys)
    (h : resolvedLocation t = resolvedLocation s) :
    (LoadConfigFile env t st).2.1 = (LoadConfigFile env s sys).2.1 := by
  rcases readFile_cases env (resolvedLocation s) with hr | ⟨bytes, hr, hd⟩ | ⟨bytes, hr, hd⟩
  · rw [LoadConfigFile_noFile env s sys hr, LoadConfigFile_noFile env t st (h ▸ hr)]
  · rw [LoadConfigFile_malformed env s sys bytes hr hd,
      LoadConfigFile_malformed env t st bytes (h ▸ hr) hd]
  · rw [LoadConfigFile_decoded env s sys bytes hr hd,
      LoadConfigFile_decoded env t st bytes (h ▸ hr) hd]

/-- Parsing the same value-bearing tokens into the record `LoadConfigFile`
produced and loading again gives that record and that error again. -/
theorem parsed_LoadConfigFile_idem (env : Env) (args : List String) (s0 : SettingsRec)
    (sys st : Sys) :
    (LoadConfigFile env (parsed args (LoadConfigFile env (parsed args s0) sys).1) st).1 =
        (LoadConfigFile env (parsed args s0) sys).1 ∧
      (LoadConfigFile env (parsed args (LoadConfigFile env (parsed args s0) sys).1) st).2.1 =
        (LoadConfigFile env (parsed args s0) sys).2.1 := by
  have hr := LoadConfigFile_fields env (parsed args s0) sys
  have hloc : resolvedLocation (parsed args (LoadConfigFile env (parsed args s0) sys).1) =
      resolvedLocation (parsed args s0) := by
    rw [hr]
    exact lastWrite_idem isConfigTok s0.ConfigLocation args
      (fun y : String => if y = "" then defaultConfigLocation else y) resolve_idem
  refine ⟨?_, LoadConfigFile_err_congr env _ _ sys st hloc⟩
  rw [LoadConfigFile_fields env (parsed args (LoadConfigFile env (parsed args s0) sys).1) st,
    hloc, hr]
  show SettingsRec.mk _ _ _ _ = SettingsRec.mk _ _ _ _
  congr 1
  · exact lastWrite_idem isFooTok s0.Foo args
      (fun x => pick x (fileValue env (resolvedLocation (parsed args s0)) SettingsRec.Foo)
        defaultFoo) (pick_idem _ _)
  · exact lastWrite_idem isBarTok s0.Bar args
      (fun x => pick x (fileValue env (resolvedLocation (parsed args s0)) SettingsRec.Bar)
        defaultBar) (pick_idem _ _)
  · exact lastWrite_idem isBazTok s0.Baz args
      (fun x => pick x (fileValue env (resolvedLocation (parsed args s0)) SettingsRec.Baz)
        defaultBaz) (pick_idem _ _)

/-- C14: for every initial record, every argument vector on which the parser
returns and every file system and decoder, `Load` returns a record and an
error, and `Load` called again on that record, with the same arguments and
from the process state the first call left, returns the same record and the
same error. -/
theorem Load_idempotent (env : Env) (s0 s1 : SettingsRec) (osArgs : List String)
    (sys sys1 : Sys) (h : LoadStartupArgs s0 osArgs sys = .returned s1 sys1) :
    ∃ r err sys2 sys3, Load env s0 osArgs sys = .returned (r, err) sys2 ∧
      Load env r osArgs sys2 = .returned (r, err) sys3 := by
  obtain ⟨args, _, H⟩ := LoadStartupArgs_returned_shape s0 s1 osArgs sys sys1 h
  have hp : ∀ (s : SettingsRec) (st : Sys),
      LoadStartupArgs s osArgs st = .returned (parsed args s) st := H
  obtain ⟨e1, e2⟩ := parsed_LoadConfigFile_idem env args s0 sys
    (LoadConfigFile env (parsed args s0) sys).2.2
  refine ⟨(LoadConfigFile env (parsed args s0) sys).1,
    (LoadConfigFile env (parsed args s0) sys).2.1,
    (LoadConfigFile env (parsed args s0) sys).2.2,
    (LoadConfigFile env (parsed args (LoadConfigFile env (parsed args s0) sys).1)
      (LoadConfigFile env (parsed args s0) sys).2.2).2.2,
    Load_of_returned env s0 _ osArgs sys sys (hp s0 sys), ?_⟩
  rw [Load_of_returned env _ _ osArgs _ _ (hp _ _), e1, e2]

/-- C14, on a record with `Baz` set, the arguments `--foo= -c=./alt.yml` and
the file `foo: A`, `bar: B`: the first call gives `A`, `B`, `old`, `./alt.yml`
without error, and so does the second call on that record. -/
theorem Load_idempotent_witness :
    (LoadStartupArgs { Baz := "old" } ["democonfig", "--foo=", "-c=./alt.yml"] {} =
        .returned { Baz := "old", ConfigLocation := "./alt.yml" } {} ∧
      Load envAltFile { Baz := "old" } ["democonfig", "--foo=", "-c=./alt.yml"] {} =
        .returned
          ({ Foo := "A", Bar := "B", Baz := "old", ConfigLocation := "./alt.yml" }, none)
          { reads := ["./alt.yml"] } ∧
      Load envAltFile { Foo := "A", Bar := "B", Baz := "old", ConfigLocation := "./alt.yml" }
          ["democonfig", "--foo=", "-c=./alt.yml"] { reads := ["./alt.yml"] } =
        .returned
          ({ Foo := "A", Bar := "B", Baz := "old", ConfigLocation := "./alt.yml" }, none)
          { reads := ["./alt.yml", "./alt.yml"] }) ∧
      ∃ r err sys2 sys3,
        Load envAltFile { Baz := "old" } ["democonfig", "--foo=", "-c=./alt.yml"] {} =
          .returned (r, err) sys2 ∧
        Load envAltFile r ["democonfig", "--foo=", "-c=./alt.yml"] sys2 =
          .returned (r, err) sys3 :=
  ⟨by decide,
   Load_idempotent envAltFile { Baz := "old" } { Baz := "old", ConfigLocation := "./alt.yml" }
     ["democonfig", "--foo=", "-c=./alt.yml"] {} {} (by decide)⟩

/-! ## What the parser prints -/

/-- The parser at the first token that is not value-bearing: what that token
does is what the parser does. -/
theorem LoadStartupArgs_exits_at (s : SettingsRec) (prog tok : String)
    (pre post : List String) (sys st : Sys) (code : Int)
    (hpre : ∀ t ∈ pre, isValueTok t = true)
    (h : ∀ r : SettingsRec, processArg tok r sys = .exited code st) :
    LoadStartupArgs s (prog :: (pre ++ tok :: post)) sys = .exited code st := by
  rw [LoadStartupArgs_cons, argsLoop_values pre (tok :: post) hpre 1 (by decide) s sys,
    argsLoop, if_neg (by omega), h]

theorem banner_eq : banner = "democonfig 0.0.1 built on 2021-08-01\n" := by decide

theorem data_append (a b : String) : (a ++ b).data = a.data ++ b.data := by
  cases a
  cases b
  rfl

/-- The line printed for an unknown argument does not start with the banner. -/
theorem unknown_line_not_banner (tok : String) :
    HasPrefix ("unknown argument: " ++ tok ++ "\n") banner = false := by
  apply HasPrefix_clash _ "unknown argument: " banner
  · rw [HasPrefix_iff]
    exact ⟨tok.data ++ "\n".data, by rw [data_append, data_append, List.append_assoc]⟩
  · intro t
    rfl

/-- C15: at a `--version` or `-V` token reached after value-bearing tokens the
parser has printed exactly the banner line
`democonfig 0.0.1 built on 2021-08-01`; at a `--help` or `-h` token exactly
that line followed by the help text as a further line; at an unknown argument
exactly the `unknown argument:` line, which does not start with the banner;
and whenever the parser returns, standard output is as it was. -/
theorem LoadStartupArgs_output (s : SettingsRec) (prog tok : String)
    (pre post : List String) (sys : Sys) (hpre : ∀ t ∈ pre, isValueTok t = true) :
    ((tok = "--version" ∨ tok = "-V") →
        LoadStartupArgs s (prog :: (pre ++ tok :: post)) sys =
          .exited 0
            { stdout := sys.stdout ++ "democonfig 0.0.1 built on 2021-08-01\n",
              reads := sys.reads }) ∧
      ((tok = "--help" ∨ tok = "-h") →
        LoadStartupArgs s (prog :: (pre ++ tok :: post)) sys =
          .exited 0
            { stdout :=
                sys.stdout ++ "democonfig 0.0.1 built on 2021-08-01\n" ++ (helpMessage ++ "\n"),
              reads := sys.reads }) ∧
      (recognized tok = false →
        LoadStartupArgs s (prog :: (pre ++ tok :: post)) sys =
            .exited 1
              { stdout := sys.stdout ++ ("unknown argument: " ++ tok ++ "\n"),
                reads := sys.reads } ∧
          HasPrefix ("unknown argument: " ++ tok ++ "\n")
            "democonfig 0.0.1 built on 2021-08-01\n" = false) ∧
      (∀ (s0 s1 : SettingsRec) (osArgs : List String) (st st1 : Sys),
        LoadStartupArgs s0 osArgs st = .returned s1 st1 → st1.stdout = st.stdout) := by
  refine ⟨?_, ?_, ?_, ?_⟩
  · intro h
    rw [LoadStartupArgs_exits_at s prog tok pre post sys _ 0 hpre
      (fun r => processArg_version tok r sys h)]
    simp only [Sys.print, banner_eq]
  · intro h
    rw [LoadStartupArgs_exits_at s prog tok pre post sys _ 0 hpre
      (fun r => processArg_help tok r sys h)]
    simp only [Sys.print, banner_eq]
  · intro h
    refine ⟨?_, ?_⟩
    · rw [LoadStartupArgs_exits_at s prog tok pre post sys _ 1 hpre
        (fun r => processArg_unknown tok r sys h)]
      rfl
    · rw [← banner_eq]
      exact unknown_line_not_banner tok
  · intro s0 s1 osArgs st st1 h
    rw [LoadStartupArgs_returned_sys s0 s1 osArgs st st1 h]

/-- C15, on `--bar=1 --version`, `--bar=1 -h`, `--bar=1 --nope` and `--bar=1`:
the banner alone, the banner and the help text, the unknown-argument line
alone, and nothing. -/
theorem LoadStartupArgs_output_witness :
    ((∀ t ∈ ["--bar=1"], isValueTok t = true) ∧
      LoadStartupArgs {} ["democonfig", "--bar=1", "--version"] {} =
        .exited 0 { stdout := "democonfig 0.0.1 built on 2021-08-01\n" } ∧
      LoadStartupArgs {} ["democonfig", "--bar=1", "--nope"] {} =
        .exited 1 { stdout := "unknown argument: --nope\n" } ∧
      LoadStartupArgs {} ["democonfig", "--bar=1"] {} = .returned { Bar := "1" } {}) ∧
      LoadStartupArgs {} ("democonfig" :: (["--bar=1"] ++ "--version" :: ["--nope"])) {} =
        .exited 0
          { stdout := ({} : Sys).stdout ++ "democonfig 0.0.1 built on 2021-08-01\n",
            reads := ({} : Sys).reads } ∧
      LoadStartupArgs {} ("democonfig" :: (["--bar=1"] ++ "-h" :: ["--nope"])) {} =
        .exited 0
          { stdout :=
              ({} : Sys).stdout ++ "democonfig 0.0.1 built on 2021-08-01\n" ++
                (helpMessage ++ "\n"),
            reads := ({} : Sys).reads } :=
  ⟨by decide,
   (LoadStartupArgs_output {} "democonfig" "--version" ["--bar=1"] ["--nope"] {}
     (by decide)).1 (Or.inl rfl),
   (LoadStartupArgs_output {} "democonfig" "-h" ["--bar=1"] ["--nope"] {}
     (by decide)).2.1 (Or.inr rfl)⟩

/-! ## Long and short forms -/

theorem HasPrefix_append (p value : String) : HasPrefix (p ++ value) p = true := by
  rw [HasPrefix_iff]
  exact ⟨value.data, data_append p value⟩

/-- What the parser takes from a token made of a prefix that ends in its only
`=` and a value: piece 0 of the split of the value. -/
theorem carried_append (p value : String) (hmem : '=' ∈ p.data)
    (hp : ∀ l : List Char, ((p.data ++ l).dropWhile (fun c => c != '=')).drop 1 = l) :
    carried (p ++ value) =
      (((splitAfterChars '=' value.data).head?).map String.mk).getD "" := by
  have hm : '=' ∈ (p ++ value).data := by
    rw [data_append]
    exact List.mem_append_left _ hmem
  unfold carried argValue SplitAfter
  rw [List.get?_eq_getElem?, List.getElem?_map, ← List.get?_eq_getElem?,
    splitAfterChars_get_one '=' _ hm, data_append, hp]

/-- The two forms of an option carry the same value. -/
theorem carried_forms (value : String) :
    carried ("--foo=" ++ value) = carried ("-f=" ++ value) ∧
      carried ("--bar=" ++ value) = carried ("-b=" ++ value) ∧
      carried ("--baz=" ++ value) = carried ("-z=" ++ value) ∧
      carried ("--config=" ++ value) = carried ("-c=" ++ value) := by
  refine ⟨?_, ?_, ?_, ?_⟩
  · rw [carried_append "--foo=" value (by decide) (fun _ => rfl),
      carried_append "-f=" value (by decide) (fun _ => rfl)]
  · rw [carried_append "--bar=" value (by decide) (fun _ => rfl),
      carried_append "-b=" value (by decide) (fun _ => rfl)]
  · rw [carried_append "--baz=" value (by decide) (fun _ => rfl),
      carried_append "-z=" value (by decide) (fun _ => rfl)]
  · rw [carried_append "--config=" value (by decide) (fun _ => rfl),
      carried_append "-c=" value (by decide) (fun _ => rfl)]

/-- Two tokens of the same class that carry the same value are stored alike. -/
theorem store_congr (t u : String) (s : SettingsRec)
    (hF : isFooTok t = isFooTok u) (hB : isBarTok t = isBarTok u)
    (hZ : isBazTok t = isBazTok u) (hC : isConfigTok t = isConfigTok u)
    (hv : carried t = carried u) : store t s = store u s := by
  unfold store
  rw [hF, hB, hZ, hC, hv]

theorem processArg_foo_pair (t u : String) (s : SettingsRec) (sys : Sys)
    (ht : isFooTok t = true) (hu : isFooTok u = true) (hv : carried t = carried u) :
    processArg t s sys = processArg u s sys := by
  rw [processArg_value t s sys (by simp [isValueTok, ht]),
    processArg_value u s sys (by simp [isValueTok, hu]),
    store_congr t u s (by rw [ht, hu])
      (by rw [isFooTok_not_bar t ht, isFooTok_not_bar u hu])
      (by rw [isFooTok_not_baz t ht, isFooTok_not_baz u hu])
      (by rw [isFooTok_not_config t ht, isFooTok_not_config u hu]) hv]

theorem processArg_bar_pair (t u : String) (s : SettingsRec) (sys : Sys)
    (ht : isBarTok t = true) (hu : isBarTok u = true) (hv : carried t = carried u) :
    processArg t s sys = processArg u s sys := by
  rw [processArg_value t s sys (by simp [isValueTok, ht]),
    processArg_value u s sys (by simp [isValueTok, hu]),
    store_congr t u s (by rw [isBarTok_not_foo t ht, isBarTok_not_foo u hu])
      (by rw [ht, hu])
      (by rw [isBarTok_not_baz t ht, isBarTok_not_baz u hu])
      (by rw [isBarTok_not_config t ht, isBarTok_not_config u hu]) hv]

theorem processArg_baz_pair (t u : String) (s : SettingsRec) (sys : Sys)
    (ht : isBazTok t = true) (hu : isBazTok u = true) (hv : carried t = carried u) :
    processArg t s sys = processArg u s sys := by
  rw [processArg_value t s sys (by simp [isValueTok, ht]),
    processArg_value u s sys (by simp [isValueTok, hu]),
    store_congr t u s (by rw [isBazTok_not_foo t ht, isBazTok_not_foo u hu])
      (by rw [isBazTok_not_bar t ht, isBazTok_not_bar u hu])
      (by rw [ht, hu])
      (by rw [isBazTok_not_config t ht, isBazTok_not_config u hu]) hv]

theorem processArg_config_pair (t u : String) (s : SettingsRec) (sys : Sys)
    (ht : isConfigTok t = true) (hu : isConfigTok u = true) (hv : carried t = carried u) :
    processArg t s sys = processArg u s sys := by
  rw [processArg_value t s sys (by simp [isValueTok, ht]),
    processArg_value u s sys (by simp [isValueTok, hu]),
    store_congr t u s (by rw [isConfigTok_not_foo t ht, isConfigTok_not_foo u hu])
      (by rw [isConfigTok_not_bar t ht, isConfigTok_not_bar u hu])
      (by rw [isConfigTok_not_baz t ht, isConfigTok_not_baz u hu])
      (by rw [ht, hu]) hv]

theorem class_of_forms (value : String) :
    isFooTok ("--foo=" ++ value) = true ∧ isFooTok ("-f=" ++ value) = true ∧
      isBarTok ("--bar=" ++ value) = true ∧ isBarTok ("-b=" ++ value) = true ∧
      isBazTok ("--baz=" ++ value) = true ∧ isBazTok ("-z=" ++ value) = true ∧
      isConfigTok ("--config=" ++ value) = true ∧ isConfigTok ("-c=" ++ value) = true := by
  simp [isFooTok, isBarTok, isBazTok, isConfigTok, HasPrefix_append]

/-- One step of the loop does the same for the two forms of an option. -/
theorem processArg_forms (t u : String) (h : otherForm t u) (s : SettingsRec) (sys : Sys) :
    processArg t s sys = processArg u s sys := by
  rcases h with ⟨rfl, rfl⟩ | ⟨rfl, rfl⟩ | ⟨rfl, rfl⟩ | ⟨rfl, rfl⟩ | ⟨value, h⟩
  · rw [processArg_help _ s sys (Or.inl rfl), processArg_help _ s sys (Or.inr rfl)]
  · rw [processArg_help _ s sys (Or.inl rfl), processArg_help _ s sys (Or.inr rfl)]
  · rw [processArg_version _ s sys (Or.inl rfl), processArg_version _ s sys (Or.inr rfl)]
  · rw [processArg_version _ s sys (Or.inl rfl), processArg_version _ s sys (Or.inr rfl)]
  · obtain ⟨f1, f2, b1, b2, z1, z2, c1, c2⟩ := class_of_forms value
    obtain ⟨vf, vb, vz, vc⟩ := carried_forms value
    rcases h with ⟨rfl, rfl⟩ | ⟨rfl, rfl⟩ | ⟨rfl, rfl⟩ | ⟨rfl, rfl⟩ | ⟨rfl, rfl⟩ |
      ⟨rfl, rfl⟩ | ⟨rfl, rfl⟩ | ⟨rfl, rfl⟩
    · exact processArg_foo_pair _ _ s sys f1 f2 vf
    · exact processArg_foo_pair _ _ s sys f2 f1 vf.symm
    · exact processArg_bar_pair _ _ s sys b1 b2 vb
    · exact processArg_bar_pair _ _ s sys b2 b1 vb.symm
    · exact processArg_baz_pair _ _ s sys z1 z2 vz
    · exact processArg_baz_pair _ _ s sys z2 z1 vz.symm
    · exact processArg_config_pair _ _ s sys c1 c2 vc
    · exact processArg_config_pair _ _ s sys c2 c1 vc.symm

/-- The loop does the same on two vectors that differ in one token whose
step is the same. -/
theorem argsLoop_congr (t u : String) (pre post : List String)
    (h : ∀ (s : SettingsRec) (sys : Sys), processArg t s sys = processArg u s sys)
    (i : Nat) (s : SettingsRec) (sys : Sys) :
    argsLoop i (pre ++ t :: post) s sys = argsLoop i (pre ++ u :: post) s sys := by
  induction pre generalizing i s sys with
  | nil =>
    simp only [List.nil_append]
    rw [argsLoop, argsLoop, h]
  | cons v vs ih =>
    simp only [List.cons_append]
    rw [argsLoop, argsLoop]
    by_cases hi : i = 0
    · rw [if_pos hi, if_pos hi]
      exact ih (i + 1) s sys
    · rw [if_neg hi, if_neg hi]
      cases processArg v s sys with
      | returned s1 sys1 => exact ih (i + 1) s1 sys1
      | exited code sys1 => rfl
      | panicked sys1 => rfl

/-- C16: replacing one token of the argument vector by its other form with
the same value (`--foo=V` and `-f=V`, `--bar=V` and `-b=V`, `--baz=V` and
`-z=V`, `--config=V` and `-c=V`, `--help` and `-h`, `--version` and `-V`)
changes nothing in what the parser does: same record when it returns, same
exit code and output when it ends the process; the same holds for `Load`. -/
theorem LoadStartupArgs_forms (env : Env) (s : SettingsRec) (prog t u : String)
    (pre post : List String) (sys : Sys) (h : otherForm t u) :
    LoadStartupArgs s (prog :: (pre ++ t :: post)) sys =
        LoadStartupArgs s (prog :: (pre ++ u :: post)) sys ∧
      Load env s (prog :: (pre ++ t :: post)) sys =
        Load env s (prog :: (pre ++ u :: post)) sys := by
  have hp : LoadStartupArgs s (prog :: (pre ++ t :: post)) sys =
      LoadStartupArgs s (prog :: (pre ++ u :: post)) sys := by
    rw [LoadStartupArgs_cons, LoadStartupArgs_cons]
    exact argsLoop_congr t u pre post (processArg_forms t u h) 1 s sys
  refine ⟨hp, ?_⟩
  unfold Load
  rw [hp]

/-- C16, on `-b=1 --foo=a=b -z=3` against `-b=1 -f=a=b -z=3`: the parser
returns the same record for both, and `Load` ends the same way. -/
theorem LoadStartupArgs_forms_witness :
    (otherForm "--foo=a=b" "-f=a=b" ∧
      LoadStartupArgs {} ["democonfig", "-b=1", "--foo=a=b", "-z=3"] {} =
        .returned { Foo := "a=", Bar := "1", Baz := "3" } {} ∧
      LoadStartupArgs {} ["democonfig", "-b=1", "-f=a=b", "-z=3"] {} =
        .returned { Foo := "a=", Bar := "1", Baz := "3" } {}) ∧
      LoadStartupArgs {} ("democonfig" :: (["-b=1"] ++ "--foo=a=b" :: ["-z=3"])) {} =
        LoadStartupArgs {} ("democonfig" :: (["-b=1"] ++ "-f=a=b" :: ["-z=3"])) {} ∧
      Load envNoFile {} ("democonfig" :: (["-b=1"] ++ "--foo=a=b" :: ["-z=3"])) {} =
        Load envNoFile {} ("democonfig" :: (["-b=1"] ++ "-f=a=b" :: ["-z=3"])) {} :=
  ⟨⟨Or.inr (Or.inr (Or.inr (Or.inr ⟨"a=b", Or.inl ⟨by decide, by decide⟩⟩))), by decide,
      by decide⟩,
   LoadStartupArgs_forms envNoFile {} "democonfig" "--foo=a=b" "-f=a=b" ["-b=1"] ["-z=3"] {}
     (Or.inr (Or.inr (Or.inr (Or.inr ⟨"a=b", Or.inl ⟨by decide, by decide⟩⟩))))⟩

/-! ## The help text -/

theorem containsChars_iff (sub l : List Char) : containsChars sub l = true ↔ sub <:+: l := by
  induction l with
  | nil => cases sub <;> simp [containsChars]
  | cons c cs ih =>
    rw [containsChars, Bool.or_eq_true, ih, List.isPrefixOf_iff_prefix, List.infix_cons_iff]

set_option maxRecDepth 100000

/-- C17: the help text names `--help`, `-h`, `--foo=`, `-f=`, `--bar=`, `-b=`,
`--baz=`, `-z=`, `--config=`, `-c=` and shows the four default constants, but
neither `--version` nor `-V` occurs in it, although the parser recognizes
both; `--help` prints the banner and this text. -/
theorem helpMessage_omits_version :
    Contains helpMessage "--version" = false ∧ Contains helpMessage "-V" = false ∧
      recognized "--version" = true ∧ recognized "-V" = true ∧
      (∀ t ∈ ["--help", "-h", "--foo=", "-f=", "--bar=", "-b=", "--baz=", "-z=",
          "--config=", "-c="], recognized t = true ∧ Contains helpMessage t = true) ∧
      Contains helpMessage ("--foo= \t\t-f=\t\tSet foo value.\t\t\tDefault: " ++ defaultFoo ++ "\n")
        = true ∧
      Contains helpMessage ("--bar= \t\t-b=\t\tSet bar value.\t\t\tDefault: " ++ defaultBar ++ "\n")
        = true ∧
      Contains helpMessage ("--baz= \t\t-z=\t\tSet baz value.\t\t\tDefault: " ++ defaultBaz ++ "\n")
        = true ∧
      HasPrefix helpMessage "\n\t--help\t \t-h\t\tDisplay this help message.\n" = true ∧
      Contains (helpMessage ++ "\n")
        ("--config=\t-c=\t\tPath to config file.\t\tDefault: " ++ defaultConfigLocation ++ "\n")
        = true ∧
      LoadStartupArgs {} ["democonfig", "--help"] {} =
        .exited 0 { stdout := banner ++ helpMessage ++ "\n" } := by
  decide

/-! ## No index out of range -/

/-- The loop, from any index, returns without printing or leaves through one
of the three exits. -/
theorem argsLoop_outcome (args : List String) (i : Nat) (s : SettingsRec) (sys : Sys) :
    (∃ s1, argsLoop i args s sys = .returned s1 sys) ∨
      argsLoop i args s sys = .exited 0 (sys.print banner) ∨
      argsLoop i args s sys = .exited 0 ((sys.print banner).print (helpMessage ++ "\n")) ∨
      ∃ tok, tok ∈ args ∧ recognized tok = false ∧
        argsLoop i args s sys = .exited 1 (sys.print ("unknown argument: " ++ tok ++ "\n")) := by
  induction args generalizing i s with
  | nil => exact Or.inl ⟨s, by rw [argsLoop]⟩
  | cons v rest ih =>
    have lift : ∀ (j : Nat) (r : SettingsRec),
        argsLoop i (v :: rest) s sys = argsLoop j rest r sys →
        (∃ s1, argsLoop i (v :: rest) s sys = .returned s1 sys) ∨
          argsLoop i (v :: rest) s sys = .exited 0 (sys.print banner) ∨
          argsLoop i (v :: rest) s sys =
            .exited 0 ((sys.print banner).print (helpMessage ++ "\n")) ∨
          ∃ tok, tok ∈ v :: rest ∧ recognized tok = false ∧
            argsLoop i (v :: rest) s sys =
              .exited 1 (sys.print ("unknown argument: " ++ tok ++ "\n")) := by
      intro j r e
      rw [e]
      rcases ih j r with h | h | h | ⟨tok, hm, hr, h⟩
      · exact Or.inl h
      · exact Or.inr (Or.inl h)
      · exact Or.inr (Or.inr (Or.inl h))
      · exact Or.inr (Or.inr (Or.inr ⟨tok, List.mem_cons_of_mem _ hm, hr, h⟩))
    by_cases hi : i = 0
    · exact lift (i + 1) s (by rw [argsLoop, if_pos hi])
    · rcases processArg_outcome v s sys with ⟨_, hp⟩ | ⟨_, hp⟩ | ⟨_, hp⟩ | ⟨hr, hp⟩
      · exact lift (i + 1) (store v s) (by rw [argsLoop, if_neg hi, hp])
      · exact Or.inr (Or.inl (by rw [argsLoop, if_neg hi, hp]))
      · exact Or.inr (Or.inr (Or.inl (by rw [argsLoop, if_neg hi, hp])))
      · exact Or.inr (Or.inr (Or.inr
          ⟨v, List.mem_cons_self _ _, hr, by rw [argsLoop, if_neg hi, hp]⟩))

theorem SplitAfter_length (v : String) (h : '=' ∈ v.data) : 2 ≤ (SplitAfter v '=').length := by
  unfold SplitAfter
  rw [List.length_map]
  exact splitAfterChars_length '=' v.data h

/-- C18: a token that passes one of the eight prefix tests is split into at
least two pieces, so piece 1 exists (for `--foo=` it is the empty string);
and on every argument vector the parser either returns, or prints the banner
and exits with code 0, or prints the banner and the help text and exits with
code 0, or prints the unknown-argument line of one of its tokens and exits
with code 1: it never panics. -/
theorem LoadStartupArgs_never_panics :
    (∀ v : String,
        (HasPrefix v "--foo=" = true ∨ HasPrefix v "-f=" = true ∨
          HasPrefix v "--bar=" = true ∨ HasPrefix v "-b=" = true ∨
          HasPrefix v "--baz=" = true ∨ HasPrefix v "-z=" = true ∨
          HasPrefix v "--config=" = true ∨ HasPrefix v "-c=" = true) →
        2 ≤ (SplitAfter v '=').length ∧ ∃ a, argValue v = some a) ∧
      (SplitAfter "--foo=" '=' = ["--foo=", ""] ∧ argValue "--foo=" = some "") ∧
      (∀ (s : SettingsRec) (osArgs : List String) (sys : Sys),
        ((∃ s1, LoadStartupArgs s osArgs sys = .returned s1 sys) ∨
          LoadStartupArgs s osArgs sys = .exited 0 (sys.print banner) ∨
          LoadStartupArgs s osArgs sys =
            .exited 0 ((sys.print banner).print (helpMessage ++ "\n")) ∨
          ∃ tok, tok ∈ osArgs ∧ recognized tok = false ∧
            LoadStartupArgs s osArgs sys =
              .exited 1 (sys.print ("unknown argument: " ++ tok ++ "\n"))) ∧
        ∀ st, LoadStartupArgs s osArgs sys ≠ .panicked st) := by
  refine ⟨?_, by decide, ?_⟩
  · intro v hv
    have hval : isValueTok v = true := by
      simp only [isValueTok, isFooTok, isBarTok, isBazTok, isConfigTok, Bool.or_eq_true,
        or_assoc]
      exact hv
    exact ⟨SplitAfter_length v (isValueTok_mem v hval), _, argValue_of_value v hval⟩
  · intro s osArgs sys
    have hout :
        (∃ s1, LoadStartupArgs s osArgs sys = .returned s1 sys) ∨
          LoadStartupArgs s osArgs sys = .exited 0 (sys.print banner) ∨
          LoadStartupArgs s osArgs sys =
            .exited 0 ((sys.print banner).print (helpMessage ++ "\n")) ∨
          ∃ tok, tok ∈ osArgs ∧ recognized tok = false ∧
            LoadStartupArgs s osArgs sys =
              .exited 1 (sys.print ("unknown argument: " ++ tok ++ "\n")) := by
      unfold LoadStartupArgs
      by_cases hl : osArgs.length = 1
      · rw [if_pos hl]
        exact Or.inl ⟨s, rfl⟩
      · rw [if_neg hl]
        exact argsLoop_outcome osArgs 0 s sys
    refine ⟨hout, ?_⟩
    intro st hst
    rcases hout with ⟨s1, h⟩ | h | h | ⟨tok, _, _, h⟩ <;> rw [h] at hst <;> cases hst

/-- C18, on the tokens `--foo=` and `-c=a=b=c` and the vector
`-c=a=b=c --foo= --nope`: two and four pieces, and exit 1 at `--nope`. -/
theorem LoadStartupArgs_never_panics_witness :
    ((HasPrefix "--foo=" "--foo=" = true ∧ HasPrefix "-c=a=b=c" "-c=" = true) ∧
      SplitAfter "-c=a=b=c" '=' = ["-c=", "a=", "b=", "c"] ∧
      LoadStartupArgs {} ["democonfig", "-c=a=b=c", "--foo=", "--nope"] {} =
        .exited 1 { stdout := "unknown argument: --nope\n" }) ∧
      (2 ≤ (SplitAfter "--foo=" '=').length ∧ ∃ a, argValue "--foo=" = some a) ∧
      (2 ≤ (SplitAfter "-c=a=b=c" '=').length ∧ ∃ a, argValue "-c=a=b=c" = some a) :=
  ⟨by decide,
   LoadStartupArgs_never_panics.1 "--foo=" (Or.inl (by decide)),
   LoadStartupArgs_never_panics.1 "-c=a=b=c"
     (Or.inr (Or.inr (Or.inr (Or.inr (Or.inr (Or.inr (Or.inr (by decide))))))))⟩

end Config
